import Mathlib

/-!
Verification of the SCARA robot control pipeline (src/scara.py, src/scara_arm.py,
src/scara_imaging.py) against its natural-language specification.

The Python sources are shallowly embedded: pure numeric code over Python floats is
modelled over the reals (geometry solver, control loop) or the rationals (imaging
arithmetic on pixel data); Python exceptions (`ValueError` from `math.acos` and the
servo driver, `ZeroDivisionError` from float division by zero) are modelled with
`Except PyErr`.
-/

namespace Scara

/-- Python exception kinds that the embedded code can raise. -/
inductive PyErr
  | valueError
  | zeroDivisionError
deriving DecidableEq

deriving instance DecidableEq for Except

/-! ## Geometry solver (src/scara_arm.py, `find_angles`, lines 118-140) -/

/-- Python `math.atan2 y x`: the angle of the point `(x, y)`, in `(-π, π]`, with
`atan2 0 0 = 0`.  `Complex.arg (x + y i)` has exactly this semantics. -/
noncomputable def atan2 (y x : ℝ) : ℝ := Complex.arg ((x : ℂ) + (y : ℂ) * Complex.I)

/-- Python `math.degrees`: radians to degrees. -/
noncomputable def degrees (θ : ℝ) : ℝ := θ * 180 / Real.pi

/-- Conversion from degrees back to radians (Python `math.radians`), used by the
forward-kinematics check of claim C1 since `find_angles` reports degrees. -/
noncomputable def radians (d : ℝ) : ℝ := d * Real.pi / 180

/-- Embedding of `find_angles(x, y, arm_lengths)` (src/scara_arm.py lines 118-140).
Two-link planar inverse kinematics.  `math.acos` raises `ValueError` when its
argument lies outside `[-1, 1]`; the division raises `ZeroDivisionError` when
`2*a*b = 0` (never the case for the configured lengths).  On success the source
returns the two solution pairs `[[shoulder1, elbow1], [shoulder2, elbow2]]`
converted to degrees, with `elbow1 = -acos c` and `elbow2 = +acos c`. -/
noncomputable def find_angles (x y : ℝ) (arm_lengths : ℝ × ℝ) :
    Except PyErr (List (ℝ × ℝ)) :=
  let a := arm_lengths.1
  let b := arm_lengths.2
  if 2 * a * b = 0 then .error .zeroDivisionError
  else if (x ^ 2 + y ^ 2 - a ^ 2 - b ^ 2) / (2 * a * b) < -1 ∨
      1 < (x ^ 2 + y ^ 2 - a ^ 2 - b ^ 2) / (2 * a * b) then .error .valueError
  else
    let angle_elbow1 := -Real.arccos ((x ^ 2 + y ^ 2 - a ^ 2 - b ^ 2) / (2 * a * b))
    let angle_shoulder1 :=
      atan2 y x - atan2 (b * Real.sin angle_elbow1) (a + b * Real.cos angle_elbow1)
    let angle_elbow2 := Real.arccos ((x ^ 2 + y ^ 2 - a ^ 2 - b ^ 2) / (2 * a * b))
    let angle_shoulder2 :=
      atan2 y x - atan2 (b * Real.sin angle_elbow2) (a + b * Real.cos angle_elbow2)
    .ok [(degrees angle_shoulder1, degrees angle_elbow1),
         (degrees angle_shoulder2, degrees angle_elbow2)]

/-- Planar forward kinematics on a solution pair given in degrees, as in the spec:
`(a·cos shoulder + b·cos (shoulder+elbow), a·sin shoulder + b·sin (shoulder+elbow))`. -/
noncomputable def fk (a b shoulderDeg elbowDeg : ℝ) : ℝ × ℝ :=
  (a * Real.cos (radians shoulderDeg) + b * Real.cos (radians shoulderDeg + radians elbowDeg),
   a * Real.sin (radians shoulderDeg) + b * Real.sin (radians shoulderDeg + radians elbowDeg))

lemma radians_degrees (θ : ℝ) : radians (degrees θ) = θ := by
  unfold radians degrees
  field_simp

/-- Core geometric fact: for any elbow angle `el` whose cosine satisfies the
two-link distance equation, the shoulder angle produced by the source formula
makes the forward kinematics land exactly on `(x, y)`. -/
lemma solution_fk (a b x y el : ℝ)
    (h : a ^ 2 + b ^ 2 + 2 * a * b * Real.cos el = x ^ 2 + y ^ 2) :
    a * Real.cos (atan2 y x - atan2 (b * Real.sin el) (a + b * Real.cos el)) +
      b * Real.cos (atan2 y x - atan2 (b * Real.sin el) (a + b * Real.cos el) + el) = x ∧
    a * Real.sin (atan2 y x - atan2 (b * Real.sin el) (a + b * Real.cos el)) +
      b * Real.sin (atan2 y x - atan2 (b * Real.sin el) (a + b * Real.cos el) + el) = y := by
  set u : ℝ := a + b * Real.cos el with hu
  set v : ℝ := b * Real.sin el with hv
  set sh : ℝ := atan2 y x - atan2 v u with hsh
  have huv : u ^ 2 + v ^ 2 = x ^ 2 + y ^ 2 := by
    have hs := Real.sin_sq_add_cos_sq el
    rw [hu, hv]
    nlinarith [hs, h]
  set w : ℂ := (u : ℂ) + (v : ℂ) * Complex.I with hw
  set z : ℂ := (x : ℂ) + (y : ℂ) * Complex.I with hz
  have habs : Complex.abs w = Complex.abs z := by
    rw [Complex.abs_apply, Complex.abs_apply, hw, hz,
      Complex.normSq_add_mul_I, Complex.normSq_add_mul_I, huv]
  have hargw : atan2 v u = Complex.arg w := rfl
  have hargz : atan2 y x = Complex.arg z := rfl
  have key : ((u * Real.cos sh - v * Real.sin sh : ℝ) : ℂ) +
      ((u * Real.sin sh + v * Real.cos sh : ℝ) : ℂ) * Complex.I = z := by
    have step1 : ((u * Real.cos sh - v * Real.sin sh : ℝ) : ℂ) +
        ((u * Real.sin sh + v * Real.cos sh : ℝ) : ℂ) * Complex.I =
        w * Complex.exp ((sh : ℂ) * Complex.I) := by
      rw [Complex.exp_mul_I, hw]
      push_cast
      ring_nf
      rw [Complex.I_sq]
      ring
    have step2 : w * Complex.exp ((sh : ℂ) * Complex.I) = z := by
      have hshc : (sh : ℂ) = (Complex.arg z : ℂ) - (Complex.arg w : ℂ) := by
        rw [hsh, hargz, hargw]
        push_cast
        ring
      calc w * Complex.exp ((sh : ℂ) * Complex.I)
          = ((Complex.abs w : ℂ) * Complex.exp ((Complex.arg w : ℂ) * Complex.I)) *
            Complex.exp ((sh : ℂ) * Complex.I) := by
            rw [Complex.abs_mul_exp_arg_mul_I]
        _ = (Complex.abs w : ℂ) *
            Complex.exp ((Complex.arg w : ℂ) * Complex.I + (sh : ℂ) * Complex.I) := by
            rw [Complex.exp_add]
            ring
        _ = (Complex.abs z : ℂ) * Complex.exp ((Complex.arg z : ℂ) * Complex.I) := by
            rw [habs, hshc]
            ring_nf
        _ = z := Complex.abs_mul_exp_arg_mul_I z
    rw [step1, step2]
  have hre : u * Real.cos sh - v * Real.sin sh = x := by
    have := congrArg Complex.re key
    simpa [hz] using this
  have him : u * Real.sin sh + v * Real.cos sh = y := by
    have := congrArg Complex.im key
    simpa [hz] using this
  constructor
  · calc a * Real.cos sh + b * Real.cos (sh + el)
        = u * Real.cos sh - v * Real.sin sh := by
          rw [Real.cos_add, hu, hv]
          ring
      _ = x := hre
  · calc a * Real.sin sh + b * Real.sin (sh + el)
        = u * Real.sin sh + v * Real.cos sh := by
          rw [Real.sin_add, hu, hv]
          ring
      _ = y := him

/-- Evaluation of `find_angles` on the success branch. -/
lemma find_angles_ok (x y a b : ℝ) (hzero : 2 * a * b ≠ 0)
    (h1 : -1 ≤ (x ^ 2 + y ^ 2 - a ^ 2 - b ^ 2) / (2 * a * b))
    (h2 : (x ^ 2 + y ^ 2 - a ^ 2 - b ^ 2) / (2 * a * b) ≤ 1) :
    find_angles x y (a, b) =
      .ok [(degrees (atan2 y x -
              atan2 (b * Real.sin (-Real.arccos ((x ^ 2 + y ^ 2 - a ^ 2 - b ^ 2) / (2 * a * b))))
                (a + b * Real.cos (-Real.arccos ((x ^ 2 + y ^ 2 - a ^ 2 - b ^ 2) / (2 * a * b))))),
            degrees (-Real.arccos ((x ^ 2 + y ^ 2 - a ^ 2 - b ^ 2) / (2 * a * b)))),
           (degrees (atan2 y x -
              atan2 (b * Real.sin (Real.arccos ((x ^ 2 + y ^ 2 - a ^ 2 - b ^ 2) / (2 * a * b))))
                (a + b * Real.cos (Real.arccos ((x ^ 2 + y ^ 2 - a ^ 2 - b ^ 2) / (2 * a * b))))),
            degrees (Real.arccos ((x ^ 2 + y ^ 2 - a ^ 2 - b ^ 2) / (2 * a * b))))] := by
  rw [find_angles]
  simp only
  rw [if_neg hzero, if_neg (by push_neg; exact ⟨h1, h2⟩)]

/-- Evaluation of `find_angles` on the unreachable branch. -/
lemma find_angles_err (x y a b : ℝ) (hzero : 2 * a * b ≠ 0)
    (h : (x ^ 2 + y ^ 2 - a ^ 2 - b ^ 2) / (2 * a * b) < -1 ∨
         1 < (x ^ 2 + y ^ 2 - a ^ 2 - b ^ 2) / (2 * a * b)) :
    find_angles x y (a, b) = .error .valueError := by
  rw [find_angles]
  simp only
  rw [if_neg hzero, if_pos h]

/-! ## Claims C1, C5, C9: geometry solver -/

/-- C1: for every reachable target `(x, y)` (distance from the shoulder between
`|a-b|` and `a+b`) with the configured arm lengths `a = 6.0`, `b = 4.5`,
`find_angles` returns exactly two solution pairs `[shoulder, elbow]` in degrees,
the two pairs being the elbow-down and elbow-up branches (elbow angles
`-acos c` and `+acos c`), and for each pair the planar forward kinematics
reproduces `(x, y)` within `1e-6`. -/
theorem find_angles_reachable_fk (x y : ℝ)
    (h1 : |(6 : ℝ) - 4.5| ≤ Real.sqrt (x ^ 2 + y ^ 2))
    (h2 : Real.sqrt (x ^ 2 + y ^ 2) ≤ 6 + 4.5) :
    ∃ p1 p2 : ℝ × ℝ,
      find_angles x y (6, 4.5) = .ok [p1, p2] ∧
      p1.2 = degrees (-Real.arccos ((x ^ 2 + y ^ 2 - 6 ^ 2 - 4.5 ^ 2) / (2 * 6 * 4.5))) ∧
      p2.2 = degrees (Real.arccos ((x ^ 2 + y ^ 2 - 6 ^ 2 - 4.5 ^ 2) / (2 * 6 * 4.5))) ∧
      |(fk 6 4.5 p1.1 p1.2).1 - x| ≤ 1e-6 ∧ |(fk 6 4.5 p1.1 p1.2).2 - y| ≤ 1e-6 ∧
      |(fk 6 4.5 p2.1 p2.2).1 - x| ≤ 1e-6 ∧ |(fk 6 4.5 p2.1 p2.2).2 - y| ≤ 1e-6 := by
  have hs : (0 : ℝ) ≤ x ^ 2 + y ^ 2 := by positivity
  have hsq := Real.sq_sqrt hs
  have hnn := Real.sqrt_nonneg (x ^ 2 + y ^ 2)
  have habs : |(6 : ℝ) - 4.5| = 1.5 := by norm_num
  have hub : x ^ 2 + y ^ 2 ≤ 110.25 := by nlinarith
  have hlb : (2.25 : ℝ) ≤ x ^ 2 + y ^ 2 := by
    rw [habs] at h1
    nlinarith
  have hc1 : -1 ≤ (x ^ 2 + y ^ 2 - 6 ^ 2 - 4.5 ^ 2) / (2 * 6 * 4.5) := by
    rw [le_div_iff (by norm_num : (0 : ℝ) < 2 * 6 * 4.5)]
    nlinarith
  have hc2 : (x ^ 2 + y ^ 2 - 6 ^ 2 - 4.5 ^ 2) / (2 * 6 * 4.5) ≤ 1 := by
    rw [div_le_one (by norm_num : (0 : ℝ) < 2 * 6 * 4.5)]
    nlinarith
  set c : ℝ := (x ^ 2 + y ^ 2 - 6 ^ 2 - 4.5 ^ 2) / (2 * 6 * 4.5) with hc
  have hdist : ∀ el : ℝ, Real.cos el = c →
      (6 : ℝ) ^ 2 + 4.5 ^ 2 + 2 * 6 * 4.5 * Real.cos el = x ^ 2 + y ^ 2 := by
    intro el hel
    rw [hel, hc]
    field_simp
  have hfk : ∀ el : ℝ, Real.cos el = c →
      (fk 6 4.5 (degrees (atan2 y x - atan2 (4.5 * Real.sin el) (6 + 4.5 * Real.cos el)))
        (degrees el)).1 = x ∧
      (fk 6 4.5 (degrees (atan2 y x - atan2 (4.5 * Real.sin el) (6 + 4.5 * Real.cos el)))
        (degrees el)).2 = y := by
    intro el hel
    have := solution_fk 6 4.5 x y el (hdist el hel)
    unfold fk
    rw [radians_degrees, radians_degrees]
    exact this
  have hcosm : Real.cos (-Real.arccos c) = c := by
    rw [Real.cos_neg, Real.cos_arccos hc1 hc2]
  have hcosp : Real.cos (Real.arccos c) = c := Real.cos_arccos hc1 hc2
  refine ⟨_, _, find_angles_ok x y 6 4.5 (by norm_num) hc1 hc2, rfl, rfl, ?_, ?_, ?_, ?_⟩
  all_goals simp only [(hfk _ hcosm).1, (hfk _ hcosm).2, (hfk _ hcosp).1, (hfk _ hcosp).2,
    sub_self, abs_zero]
  all_goals norm_num

/-- C1 witness: the point `(6, 4.5)` at distance `7.5` from the shoulder is
reachable, and the theorem applies to it. -/
theorem find_angles_reachable_fk_witness :
    (|(6 : ℝ) - 4.5| ≤ Real.sqrt (6 ^ 2 + 4.5 ^ 2) ∧
     Real.sqrt ((6 : ℝ) ^ 2 + 4.5 ^ 2) ≤ 6 + 4.5) ∧
    (∃ p1 p2 : ℝ × ℝ,
      find_angles 6 4.5 (6, 4.5) = .ok [p1, p2] ∧
      p1.2 = degrees (-Real.arccos (((6 : ℝ) ^ 2 + 4.5 ^ 2 - 6 ^ 2 - 4.5 ^ 2) / (2 * 6 * 4.5))) ∧
      p2.2 = degrees (Real.arccos (((6 : ℝ) ^ 2 + 4.5 ^ 2 - 6 ^ 2 - 4.5 ^ 2) / (2 * 6 * 4.5))) ∧
      |(fk 6 4.5 p1.1 p1.2).1 - 6| ≤ 1e-6 ∧ |(fk 6 4.5 p1.1 p1.2).2 - 4.5| ≤ 1e-6 ∧
      |(fk 6 4.5 p2.1 p2.2).1 - 6| ≤ 1e-6 ∧ |(fk 6 4.5 p2.1 p2.2).2 - 4.5| ≤ 1e-6) := by
  have hs : Real.sqrt ((6 : ℝ) ^ 2 + 4.5 ^ 2) = 7.5 := by
    rw [show (6 : ℝ) ^ 2 + 4.5 ^ 2 = 7.5 ^ 2 by norm_num, Real.sqrt_sq (by norm_num)]
  have h15 : |(6 : ℝ) - 4.5| = 1.5 := by norm_num
  refine ⟨⟨?_, ?_⟩, find_angles_reachable_fk 6 4.5 ?_ ?_⟩ <;>
    simp only [hs, h15] <;> norm_num

/-- C5: with positive arm lengths, `find_angles` fails with the unreachable-target
`ValueError` exactly when `|c| > 1`, equivalently exactly when the distance from
the origin exceeds `a+b` or is below `|a-b|`; otherwise it returns two solution
pairs.  In particular it fails at distance `a+b+ε` and `|a-b|-ε` and succeeds at
distance `a+b-ε` for `ε` small enough to stay in the annulus. -/
theorem find_angles_unreachable_iff (a b : ℝ) (ha : 0 < a) (hb : 0 < b) :
    (∀ x y : ℝ,
      (find_angles x y (a, b) = .error .valueError ↔
        1 < |(x ^ 2 + y ^ 2 - a ^ 2 - b ^ 2) / (2 * a * b)|) ∧
      (find_angles x y (a, b) = .error .valueError ↔
        a + b < Real.sqrt (x ^ 2 + y ^ 2) ∨ Real.sqrt (x ^ 2 + y ^ 2) < |a - b|) ∧
      (¬(a + b < Real.sqrt (x ^ 2 + y ^ 2) ∨ Real.sqrt (x ^ 2 + y ^ 2) < |a - b|) →
        ∃ p q : ℝ × ℝ, find_angles x y (a, b) = .ok [p, q])) ∧
    (∀ ε x y : ℝ, 0 < ε →
      (Real.sqrt (x ^ 2 + y ^ 2) = a + b + ε →
        find_angles x y (a, b) = .error .valueError) ∧
      (Real.sqrt (x ^ 2 + y ^ 2) = |a - b| - ε →
        find_angles x y (a, b) = .error .valueError) ∧
      (ε ≤ a + b - |a - b| → Real.sqrt (x ^ 2 + y ^ 2) = a + b - ε →
        ∃ p q : ℝ × ℝ, find_angles x y (a, b) = .ok [p, q])) := by
  have hzero : 2 * a * b ≠ 0 := by positivity
  have hpos : (0 : ℝ) < 2 * a * b := by positivity
  have main : ∀ x y : ℝ,
      (find_angles x y (a, b) = .error .valueError ↔
        1 < |(x ^ 2 + y ^ 2 - a ^ 2 - b ^ 2) / (2 * a * b)|) ∧
      (find_angles x y (a, b) = .error .valueError ↔
        a + b < Real.sqrt (x ^ 2 + y ^ 2) ∨ Real.sqrt (x ^ 2 + y ^ 2) < |a - b|) ∧
      (¬(a + b < Real.sqrt (x ^ 2 + y ^ 2) ∨ Real.sqrt (x ^ 2 + y ^ 2) < |a - b|) →
        ∃ p q : ℝ × ℝ, find_angles x y (a, b) = .ok [p, q]) := by
    intro x y
    have hs : (0 : ℝ) ≤ x ^ 2 + y ^ 2 := by positivity
    have hsq := Real.sq_sqrt hs
    have hnn := Real.sqrt_nonneg (x ^ 2 + y ^ 2)
    have herr : find_angles x y (a, b) = .error .valueError ↔
        ((x ^ 2 + y ^ 2 - a ^ 2 - b ^ 2) / (2 * a * b) < -1 ∨
         1 < (x ^ 2 + y ^ 2 - a ^ 2 - b ^ 2) / (2 * a * b)) := by
      constructor
      · intro h
        by_contra hcond
        push_neg at hcond
        rw [find_angles_ok x y a b hzero hcond.1 hcond.2] at h
        exact Except.noConfusion h
      · intro h
        exact find_angles_err x y a b hzero h
    have hup : 1 < (x ^ 2 + y ^ 2 - a ^ 2 - b ^ 2) / (2 * a * b) ↔
        a + b < Real.sqrt (x ^ 2 + y ^ 2) := by
      rw [lt_div_iff hpos]
      rw [show a + b < Real.sqrt (x ^ 2 + y ^ 2) ↔
          (a + b) ^ 2 < x ^ 2 + y ^ 2 from
        ⟨fun h => by nlinarith, fun h => by nlinarith⟩]
      constructor <;> intro h <;> nlinarith
    have hlo : (x ^ 2 + y ^ 2 - a ^ 2 - b ^ 2) / (2 * a * b) < -1 ↔
        Real.sqrt (x ^ 2 + y ^ 2) < |a - b| := by
      rw [div_lt_iff hpos]
      have hsqr : Real.sqrt (x ^ 2 + y ^ 2) < |a - b| ↔
          x ^ 2 + y ^ 2 < (a - b) ^ 2 := by
        constructor
        · intro h
          have h0 : (0 : ℝ) ≤ |a - b| := abs_nonneg _
          have := sq_abs (a - b)
          nlinarith
        · intro h
          have h0 : (0 : ℝ) < |a - b| := by
            rcases eq_or_ne a b with hab | hab
            · exfalso
              rw [hab] at h
              simp at h
              nlinarith
            · exact abs_pos.mpr (sub_ne_zero.mpr hab)
          by_contra hcon
          push_neg at hcon
          have := sq_abs (a - b)
          nlinarith
      rw [hsqr]
      constructor <;> intro h <;> nlinarith
    refine ⟨?_, ?_, ?_⟩
    · rw [herr, lt_abs]
      constructor
      · rintro (h | h)
        · right
          linarith
        · left
          exact h
      · rintro (h | h)
        · right
          exact h
        · left
          linarith
    · rw [herr, hup, hlo]
      exact or_comm
    · intro h
      push_neg at h
      have h1 : -1 ≤ (x ^ 2 + y ^ 2 - a ^ 2 - b ^ 2) / (2 * a * b) := by
        by_contra hcon
        push_neg at hcon
        exact absurd (hlo.mp hcon) (not_lt.mpr h.2)
      have h2 : (x ^ 2 + y ^ 2 - a ^ 2 - b ^ 2) / (2 * a * b) ≤ 1 := by
        by_contra hcon
        push_neg at hcon
        exact absurd (hup.mp hcon) (not_lt.mpr h.1)
      exact ⟨_, _, find_angles_ok x y a b hzero h1 h2⟩
  refine ⟨main, ?_⟩
  intro ε x y hε
  refine ⟨?_, ?_, ?_⟩
  · intro hd
    exact ((main x y).2.1).mpr (Or.inl (by rw [hd]; linarith))
  · intro hd
    exact ((main x y).2.1).mpr (Or.inr (by rw [hd]; linarith))
  · intro hann hd
    refine (main x y).2.2 ?_
    push_neg
    constructor
    · rw [hd]
      linarith
    · rw [hd]
      linarith

/-- C5 witness: instantiation at the configured arm lengths `(6, 4.5)`. -/
theorem find_angles_unreachable_iff_witness :
    (0 : ℝ) < 6 ∧ (0 : ℝ) < 4.5 ∧
    ((∀ x y : ℝ,
      (find_angles x y (6, 4.5) = .error .valueError ↔
        1 < |(x ^ 2 + y ^ 2 - 6 ^ 2 - 4.5 ^ 2) / (2 * 6 * 4.5)|) ∧
      (find_angles x y (6, 4.5) = .error .valueError ↔
        6 + 4.5 < Real.sqrt (x ^ 2 + y ^ 2) ∨ Real.sqrt (x ^ 2 + y ^ 2) < |(6 : ℝ) - 4.5|) ∧
      (¬(6 + 4.5 < Real.sqrt (x ^ 2 + y ^ 2) ∨ Real.sqrt (x ^ 2 + y ^ 2) < |(6 : ℝ) - 4.5|) →
        ∃ p q : ℝ × ℝ, find_angles x y (6, 4.5) = .ok [p, q])) ∧
    (∀ ε x y : ℝ, 0 < ε →
      (Real.sqrt (x ^ 2 + y ^ 2) = 6 + 4.5 + ε →
        find_angles x y (6, 4.5) = .error .valueError) ∧
      (Real.sqrt (x ^ 2 + y ^ 2) = |(6 : ℝ) - 4.5| - ε →
        find_angles x y (6, 4.5) = .error .valueError) ∧
      (ε ≤ 6 + 4.5 - |(6 : ℝ) - 4.5| → Real.sqrt (x ^ 2 + y ^ 2) = 6 + 4.5 - ε →
        ∃ p q : ℝ × ℝ, find_angles x y (6, 4.5) = .ok [p, q]))) :=
  ⟨by norm_num, by norm_num,
   find_angles_unreachable_iff 6 4.5 (by norm_num) (by norm_num)⟩

/-- C9: for all positive arm lengths with `a ≠ b` (in particular the configured
`(6.0, 4.5)`), `find_angles (0, 0)` fails with the unreachable-target
`ValueError` rather than returning any pair, because `c = -(a²+b²)/(2ab) < -1`:
the shoulder origin lies strictly inside the unreachable inner disk, so the
`atan2(0, 0)` ambiguity is never evaluated on a returned result. -/
theorem find_angles_origin_unreachable (a b : ℝ) (ha : 0 < a) (hb : 0 < b)
    (hne : a ≠ b) : find_angles 0 0 (a, b) = .error .valueError := by
  have hzero : 2 * a * b ≠ 0 := by positivity
  refine find_angles_err 0 0 a b hzero (Or.inl ?_)
  rw [div_lt_iff (by positivity : (0 : ℝ) < 2 * a * b)]
  have h0 : a - b ≠ 0 := sub_ne_zero.mpr hne
  have : 0 < (a - b) ^ 2 := (sq_nonneg _).lt_of_ne (Ne.symm (pow_ne_zero 2 h0))
  nlinarith

/-- C9 witness: the configured arm lengths `(6.0, 4.5)`. -/
theorem find_angles_origin_unreachable_witness :
    (0 : ℝ) < 6 ∧ (0 : ℝ) < 4.5 ∧ (6 : ℝ) ≠ 4.5 ∧
    find_angles 0 0 (6, 4.5) = .error .valueError :=
  ⟨by norm_num, by norm_num, by norm_num,
   find_angles_origin_unreachable 6 4.5 (by norm_num) (by norm_num) (by norm_num)⟩

/-! ## Arm joints and actuation (src/scara_arm.py, `joint`, lines 9-60; src/scara.py
`arm_init` parameters, scara_arm.py lines 85-101) -/

/-- Joint identifiers for the two arm joints. -/
inductive JId
  | shoulder
  | elbow
deriving DecidableEq

/-- A command sent to the actuation interface: `setAngle j none` releases motor
power (src/scara_arm.py `set_angle` with `angle is None`). -/
inductive Cmd
  | setAngle (j : JId) (angle : Option ℝ)

/-- Joint geometry fields of the `joint` class (src/scara_arm.py lines 33-45). -/
structure Joint where
  joint_min : ℝ
  joint_max : ℝ
  servo_min : ℝ
  servo_max : ℝ

/-- Servo angle computed by `joint.set_angle` for a non-`None` joint angle
(src/scara_arm.py lines 57-59). -/
noncomputable def Joint.servo_angle (j : Joint) (angle : ℝ) : ℝ :=
  angle * (j.servo_max - j.servo_min) / (j.joint_max - j.joint_min) + 90

/-- The shoulder joint as constructed by `arm_init` (src/scara_arm.py lines 85-93):
`joint_range = 180`, `servo_range = 180`, `flipped = True`, so `joint_min = -90`,
`joint_max = 90`, `servo_min = 90 + 90 = 180`, `servo_max = 90 - 90 = 0`. -/
noncomputable def shoulder : Joint := ⟨-90, 90, 180, 0⟩

/-- The elbow joint as constructed by `arm_init` (src/scara_arm.py lines 94-101):
`joint_range = 316`, `servo_range = 158`, not flipped, so `joint_min = -158`,
`joint_max = 158`, `servo_min = 90 - 79 = 11`, `servo_max = 90 + 79 = 169`. -/
noncomputable def elbow : Joint := ⟨-158, 158, 11, 169⟩

/-- Modelled from the spec: the underlying servo driver (the external actuation
interface of spec §6, not part of src/) rejects a commanded servo angle outside
its `[0, 180]` actuation range by raising `ValueError`; the servo angle itself
is computed by the `set_angle` formula of src/scara_arm.py.  This is the failure
mode the control loop's `except ValueError` fallback (src/scara.py lines 237-243)
recovers from. -/
noncomputable def Joint.try_set (j : Joint) (angle : ℝ) : Except PyErr Unit :=
  if 0 ≤ j.servo_angle angle ∧ j.servo_angle angle ≤ 180 then .ok () else .error .valueError

/-! ## Autonomous control loop (src/scara.py, `auto_operation`, lines 188-247) -/

/-- Arm lengths in inches (shoulder, elbow), src/scara.py line 276. -/
noncomputable def arm_lengths : ℝ × ℝ := (6.0, 4.5)

/-- The mutable loop state of `auto_operation` (src/scara.py lines 207-211 plus
the Python local `angles`, which persists across iterations once assigned and is
read by the fallback branch even when `find_angles` raised in the current one). -/
structure CycleState where
  xv : Option (ℝ × ℝ)
  x0 : ℝ
  y0 : ℝ
  angles0 : ℝ × ℝ
  angles : Option ((ℝ × ℝ) × (ℝ × ℝ))

/-- Reordering of the two IK solutions (src/scara.py lines 230-233): swap so that
the solution whose shoulder angle is closest to the previously commanded shoulder
angle comes first. -/
noncomputable def order_solutions (p1 p2 : ℝ × ℝ) (angles0 : ℝ × ℝ) :
    (ℝ × ℝ) × (ℝ × ℝ) :=
  if |p1.1 - angles0.1| > |p2.1 - angles0.1| then (p2, p1) else (p1, p2)

/-- The fallback branch of the cycle (src/scara.py lines 237-243): on
`ValueError`, retry with `angles[1]`.  Reading `angles` raises `NameError` when it
was never assigned; the bare `except:` turns any failure into the per-cycle error
message.  Returns (new state, commands issued so far in the cycle, error printed). -/
noncomputable def fallback (st : CycleState) (cmds : List Cmd) :
    CycleState × List Cmd × Bool :=
  match st.angles with
  | none => (st, cmds, true)
  | some (_, a2) =>
    match shoulder.try_set a2.1 with
    | .error _ => (st, cmds, true)
    | .ok _ =>
      match elbow.try_set a2.2 with
      | .error _ => (st, cmds ++ [Cmd.setAngle .shoulder (some a2.1)], true)
      | .ok _ =>
        ({ st with angles0 := a2 },
         cmds ++ [Cmd.setAngle .shoulder (some a2.1), Cmd.setAngle .elbow (some a2.2)],
         false)

/-- The IK-resolution and actuation block of a cycle (src/scara.py lines 228-243):
run `find_angles`, reorder the two solutions, command the preferred one; any
`ValueError` (from `find_angles` or from a `set_angle` call) diverts to the
fallback branch, with the Python local `angles` holding the swapped pair on the
actuation paths and the stale previous value on the `find_angles` failure path. -/
noncomputable def ik_resolve (st : CycleState) (x y : ℝ) :
    CycleState × List Cmd × Bool :=
  match find_angles x y arm_lengths with
  | .error .valueError => fallback st []
  | .error .zeroDivisionError => (st, [], false)
  | .ok (p1 :: p2 :: _) =>
    let q := order_solutions p1 p2 st.angles0
    let st1 := { st with angles := some q }
    match shoulder.try_set q.1.1 with
    | .error _ => fallback st1 []
    | .ok _ =>
      match elbow.try_set q.1.2 with
      | .error _ => fallback st1 [Cmd.setAngle .shoulder (some q.1.1)]
      | .ok _ =>
        ({ st1 with angles0 := q.1 },
         [Cmd.setAngle .shoulder (some q.1.1), Cmd.setAngle .elbow (some q.1.2)],
         false)
  | .ok _ => (st, [], false)

/-- One iteration of the `while True` tracking loop of `auto_operation`
(src/scara.py lines 212-243), without interrupts.  `obs` is the outcome of
`imaging.find_target`: a raised `ZeroDivisionError` is caught and leaves the loop
variables `x, y` unchanged (lines 216-221); a `(None, None)` result makes the
cycle a no-op (lines 222-223); otherwise the jitter gate (line 224) requires both
axis differences to reach 0.1 before accepting the coordinate (lines 225-226) and
running IK resolution.  Returns (new state, actuation commands issued, whether the
per-cycle error message was printed). -/
noncomputable def auto_operation_cycle (obs : Except PyErr (Option (ℝ × ℝ)))
    (st : CycleState) : CycleState × List Cmd × Bool :=
  let xv := match obs with
    | .error _ => st.xv
    | .ok o => o
  match xv with
  | none => ({ st with xv := none }, [], false)
  | some (x, y) =>
    if |x - st.x0| ≥ 0.1 ∧ |y - st.y0| ≥ 0.1 then
      ik_resolve { st with xv := some (x, y), x0 := x, y0 := y } x y
    else
      ({ st with xv := some (x, y) }, [], false)

/-- Interrupt points inside the body of the outer `try` of `auto_operation`
(src/scara.py lines 213-243), at statement boundaries; the spec's cancellation
model observes the interrupt at such points rather than preemptively.  At
`atFallbackBody` the interrupt lands inside the `try` of lines 238-241, whose
bare `except:` (line 242) catches `KeyboardInterrupt` as well. -/
inductive IPt
  | atSleep
  | atCapture
  | atGate
  | atPrint
  | atFindAngles
  | atOrder
  | atShoulderSet
  | atElbowSet
  | atStateUpdate
  | atFallbackBody

/-- Commands already issued in the current cycle when the interrupt arrives at
point `p`: a prefix of the cycle's command list determined by how far the body
has run. -/
noncomputable def cmds_issued_at (obs : Except PyErr (Option (ℝ × ℝ)))
    (st : CycleState) (p : IPt) : List Cmd :=
  match p with
  | .atElbowSet => ((auto_operation_cycle obs st).2.1).take 1
  | .atStateUpdate => ((auto_operation_cycle obs st).2.1).take 2
  | _ => []

/-- Trace of commands executed from the arrival of a `KeyboardInterrupt` at point
`p` until `auto_operation` returns control, if it does.  Everywhere except inside
the fallback `try`, the interrupt propagates (the inner `except ValueError` at
line 237 does not catch it) to the outer `except KeyboardInterrupt`
(src/scara.py lines 244-247), which depowers the shoulder, depowers the elbow and
returns.  At `atFallbackBody` the bare `except:` at line 242 swallows the
interrupt and the loop continues: control is not returned, hence `none`. -/
noncomputable def cancel_trace (obs : Except PyErr (Option (ℝ × ℝ)))
    (st : CycleState) (p : IPt) : Option (List Cmd) :=
  match p with
  | .atFallbackBody => none
  | _ => some (cmds_issued_at obs st p ++
      [Cmd.setAngle .shoulder none, Cmd.setAngle .elbow none])

/-- Elbow components of `find_angles` outputs lie in `[-180, 180]` degrees (they
are `±degrees (arccos c)` with `arccos c ∈ [0, π]`).  This is the invariant that
makes the stored solution pairs always acceptable to the elbow servo. -/
lemma find_angles_elbow_range (x y a b : ℝ) (l : List (ℝ × ℝ))
    (h : find_angles x y (a, b) = .ok l) :
    ∀ p ∈ l, -180 ≤ p.2 ∧ p.2 ≤ 180 := by
  by_cases hzero : 2 * a * b = 0
  · rw [find_angles] at h
    simp only [hzero, if_pos rfl] at h
    exact Except.noConfusion h
  · by_cases hdom : (x ^ 2 + y ^ 2 - a ^ 2 - b ^ 2) / (2 * a * b) < -1 ∨
        1 < (x ^ 2 + y ^ 2 - a ^ 2 - b ^ 2) / (2 * a * b)
    · rw [find_angles_err x y a b hzero hdom] at h
      exact Except.noConfusion h
    · push_neg at hdom
      rw [find_angles_ok x y a b hzero hdom.1 hdom.2] at h
      have hl := (Except.ok.injEq _ _).mp h
      set t := Real.arccos ((x ^ 2 + y ^ 2 - a ^ 2 - b ^ 2) / (2 * a * b)) with ht
      have h0 : 0 ≤ t := Real.arccos_nonneg _
      have hpi : t ≤ Real.pi := Real.arccos_le_pi _
      have hpip : 0 < Real.pi := Real.pi_pos
      have hposd : degrees t ≤ 180 := by
        rw [degrees, div_le_iff hpip]
        nlinarith
      have hposd0 : 0 ≤ degrees t := by
        rw [degrees]
        positivity
      have hneg : degrees (-t) = -degrees t := by
        rw [degrees, degrees]
        ring
      intro p hp
      rw [← hl] at hp
      simp only [List.mem_cons, List.not_mem_nil, or_false] at hp
      rcases hp with hp | hp <;> rw [hp] <;> simp only [hneg] <;> constructor <;> linarith

/-- Cycle evaluation when the observation is present and passes the jitter gate. -/
lemma auto_cycle_accept (x y : ℝ) (st : CycleState)
    (hgx : |x - st.x0| ≥ 0.1) (hgy : |y - st.y0| ≥ 0.1) :
    auto_operation_cycle (.ok (some (x, y))) st =
      ik_resolve { st with xv := some (x, y), x0 := x, y0 := y } x y := by
  rw [auto_operation_cycle]
  rw [if_pos ⟨hgx, hgy⟩]

/-- Cycle evaluation when the observation is present but fails the jitter gate. -/
lemma auto_cycle_reject (x y : ℝ) (st : CycleState)
    (h : ¬(|x - st.x0| ≥ 0.1 ∧ |y - st.y0| ≥ 0.1)) :
    auto_operation_cycle (.ok (some (x, y))) st =
      ({ st with xv := some (x, y) }, [], false) := by
  rw [auto_operation_cycle]
  rw [if_neg h]

/-! ## Claim C2: cancellation depowers both joints -/

/-- C2: on every cancellation path of `auto_operation` that returns control —
including an interrupt arriving in the IK-resolution code between `find_angles`
and the actuation calls — the last two commands executed before the return are
`set_angle(None)` on the shoulder and on the elbow.  (An interrupt landing inside
the fallback `try` is swallowed by the bare `except:` and the loop continues, so
control is not returned on that path.) -/
theorem auto_operation_cancel_depowers (obs : Except PyErr (Option (ℝ × ℝ)))
    (st : CycleState) (p : IPt) (t : List Cmd)
    (h : cancel_trace obs st p = some t) :
    ∃ pre : List Cmd,
      t = pre ++ [Cmd.setAngle .shoulder none, Cmd.setAngle .elbow none] := by
  cases p <;> simp only [cancel_trace] at h <;>
    first
      | exact Option.noConfusion h
      | exact ⟨_, (((Option.some.injEq _ _).mp h)).symm⟩

/-- C2 witness: an interrupt at the solution-ordering point (inside IK
resolution, after `find_angles`, before actuation) yields exactly the two
depower commands before the return. -/
theorem auto_operation_cancel_depowers_witness :
    cancel_trace (.ok none) ⟨none, 0, 0, (0, 0), none⟩ IPt.atOrder =
      some [Cmd.setAngle .shoulder none, Cmd.setAngle .elbow none] ∧
    ∃ pre : List Cmd,
      [Cmd.setAngle JId.shoulder (none : Option ℝ), Cmd.setAngle .elbow none] =
        pre ++ [Cmd.setAngle .shoulder none, Cmd.setAngle .elbow none] := by
  have h : cancel_trace (.ok none) ⟨none, 0, 0, (0, 0), none⟩ IPt.atOrder =
      some [Cmd.setAngle .shoulder none, Cmd.setAngle .elbow none] := rfl
  exact ⟨h, auto_operation_cancel_depowers _ _ _ _ h⟩

/-! ## Claim C4: double IK failure leaves the arm unmoved -/

/-- C4: in a tracking cycle whose accepted coordinate makes `find_angles` raise
`ValueError` and whose fallback branch also fails (the stored `angles` pair is
absent or not actuatable), the cycle prints the per-cycle error message, issues
no actuation command, and leaves the last commanded angles `angles0` unchanged.
The hypothesis `hinv` is the loop invariant that any stored solution pair came
from `find_angles`, whose elbow components lie in `[-180, 180]` degrees (see
`find_angles_elbow_range`), so the elbow servo write never fails after a
successful shoulder write. -/
theorem auto_cycle_double_failure_no_actuation (x y : ℝ) (st : CycleState)
    (hgx : |x - st.x0| ≥ 0.1) (hgy : |y - st.y0| ≥ 0.1)
    (hik : find_angles x y arm_lengths = .error .valueError)
    (hinv : ∀ a1 a2 : ℝ × ℝ, st.angles = some (a1, a2) → -180 ≤ a2.2 ∧ a2.2 ≤ 180)
    (hfail : ¬ ∃ a1 a2 : ℝ × ℝ, st.angles = some (a1, a2) ∧
        (0 ≤ shoulder.servo_angle a2.1 ∧ shoulder.servo_angle a2.1 ≤ 180) ∧
        (0 ≤ elbow.servo_angle a2.2 ∧ elbow.servo_angle a2.2 ≤ 180)) :
    (auto_operation_cycle (.ok (some (x, y))) st).2.2 = true ∧
    (auto_operation_cycle (.ok (some (x, y))) st).2.1 = [] ∧
    (auto_operation_cycle (.ok (some (x, y))) st).1.angles0 = st.angles0 := by
  rw [auto_cycle_accept x y st hgx hgy]
  rw [ik_resolve, hik]
  simp only
  rw [fallback]
  simp only
  rcases hst : st.angles with _ | ⟨a1, a2⟩
  · simp
  · have helbow : 0 ≤ elbow.servo_angle a2.2 ∧ elbow.servo_angle a2.2 ≤ 180 := by
      have hb := hinv a1 a2 hst
      rw [elbow, Joint.servo_angle]
      simp only
      constructor <;> nlinarith [hb.1, hb.2]
    have hsh : ¬(0 ≤ shoulder.servo_angle a2.1 ∧ shoulder.servo_angle a2.1 ≤ 180) := by
      intro hcon
      exact hfail ⟨a1, a2, hst, hcon, helbow⟩
    simp only [Joint.try_set]
    rw [if_neg hsh]
    simp

/-- C4 witness: target `(9, 9)` is out of reach (distance `√162 > 10.5`) and the
initial state has no stored solution pair, so both the IK call and the fallback
fail; nothing is commanded. -/
theorem auto_cycle_double_failure_no_actuation_witness :
    (|(9 : ℝ) - 0| ≥ 0.1 ∧ |(9 : ℝ) - 0| ≥ 0.1 ∧
     find_angles 9 9 arm_lengths = .error .valueError) ∧
    ((auto_operation_cycle (.ok (some (9, 9))) ⟨none, 0, 0, (0, 0), none⟩).2.2 = true ∧
     (auto_operation_cycle (.ok (some (9, 9))) ⟨none, 0, 0, (0, 0), none⟩).2.1 = [] ∧
     (auto_operation_cycle (.ok (some (9, 9))) ⟨none, 0, 0, (0, 0), none⟩).1.angles0 =
       (⟨none, 0, 0, (0, 0), none⟩ : CycleState).angles0) := by
  have hik : find_angles 9 9 arm_lengths = .error .valueError := by
    rw [show arm_lengths = ((6 : ℝ), (4.5 : ℝ)) by rw [arm_lengths]; norm_num]
    refine find_angles_err 9 9 6 4.5 (by norm_num) (Or.inr ?_)
    rw [lt_div_iff (by norm_num : (0 : ℝ) < 2 * 6 * 4.5)]
    norm_num
  refine ⟨⟨by norm_num, by norm_num, hik⟩, ?_⟩
  exact auto_cycle_double_failure_no_actuation 9 9 ⟨none, 0, 0, (0, 0), none⟩
    (by norm_num) (by norm_num) hik
    (by intro a1 a2 h; exact Option.noConfusion h)
    (by rintro ⟨a1, a2, h, -⟩; exact Option.noConfusion h)

/-! ## Claims C6, C7: solution selection and jitter gate -/

lemma arm_lengths_eq : arm_lengths = ((6 : ℝ), (4.5 : ℝ)) := by
  rw [arm_lengths]
  norm_num

lemma atan2_zero_ten_five : atan2 0 10.5 = 0 := by
  rw [atan2]
  have h : ((10.5 : ℝ) : ℂ) + ((0 : ℝ) : ℂ) * Complex.I = ((10.5 : ℝ) : ℂ) := by
    push_cast
    ring
  rw [h, Complex.arg_ofReal_of_nonneg (by norm_num)]

/-- Concrete evaluation: the fully stretched target `(10.5, 0)` has `c = 1`, so
both IK solutions are `(0°, 0°)`. -/
lemma find_angles_ten_five :
    find_angles 10.5 0 arm_lengths = .ok [((0 : ℝ), (0 : ℝ)), (0, 0)] := by
  rw [arm_lengths_eq]
  have hc : ((10.5 : ℝ) ^ 2 + 0 ^ 2 - 6 ^ 2 - 4.5 ^ 2) / (2 * 6 * 4.5) = 1 := by
    norm_num
  rw [find_angles_ok 10.5 0 6 4.5 (by norm_num) (by norm_num [hc]) (by norm_num [hc])]
  rw [hc, Real.arccos_one, neg_zero, Real.sin_zero, Real.cos_zero]
  rw [show (4.5 : ℝ) * 0 = 0 by ring, show (6 : ℝ) + 4.5 * 1 = 10.5 by ring]
  rw [atan2_zero_ten_five]
  norm_num [degrees]

/-- Evaluation of `ik_resolve` on the fully successful path: both servo writes of
the preferred solution are in range, so it is commanded and recorded. -/
lemma ik_resolve_ok (st : CycleState) (x y : ℝ) (p1 p2 q1 q2 : ℝ × ℝ)
    (hik : find_angles x y arm_lengths = .ok [p1, p2])
    (hq : order_solutions p1 p2 st.angles0 = (q1, q2))
    (hs1 : 0 ≤ shoulder.servo_angle q1.1) (hs2 : shoulder.servo_angle q1.1 ≤ 180)
    (he1 : 0 ≤ elbow.servo_angle q1.2) (he2 : elbow.servo_angle q1.2 ≤ 180) :
    ik_resolve st x y =
      ({ st with angles := some (q1, q2), angles0 := q1 },
       [Cmd.setAngle .shoulder (some q1.1), Cmd.setAngle .elbow (some q1.2)],
       false) := by
  rw [ik_resolve, hik]
  simp only
  rw [hq]
  simp only [Joint.try_set]
  rw [if_pos ⟨hs1, hs2⟩]
  simp only
  rw [if_pos ⟨he1, he2⟩]

/-- Evaluation of `ik_resolve` on the defensive-fallback path: the preferred
solution's shoulder write is rejected (`ValueError` at src/scara.py line 234),
so the `except ValueError` branch commands the other solution (lines 237-241),
whose writes are in range. -/
lemma ik_resolve_fallback_ok (st : CycleState) (x y : ℝ) (p1 p2 q1 q2 : ℝ × ℝ)
    (hik : find_angles x y arm_lengths = .ok [p1, p2])
    (hq : order_solutions p1 p2 st.angles0 = (q1, q2))
    (hs : ¬(0 ≤ shoulder.servo_angle q1.1 ∧ shoulder.servo_angle q1.1 ≤ 180))
    (hs2a : 0 ≤ shoulder.servo_angle q2.1) (hs2b : shoulder.servo_angle q2.1 ≤ 180)
    (he2a : 0 ≤ elbow.servo_angle q2.2) (he2b : elbow.servo_angle q2.2 ≤ 180) :
    ik_resolve st x y =
      ({ st with angles := some (q1, q2), angles0 := q2 },
       [Cmd.setAngle .shoulder (some q2.1), Cmd.setAngle .elbow (some q2.2)],
       false) := by
  rw [ik_resolve, hik]
  simp only
  rw [hq]
  simp only [Joint.try_set]
  rw [if_neg hs]
  rw [fallback]
  simp only [Joint.try_set]
  rw [if_pos ⟨hs2a, hs2b⟩]
  simp only
  rw [if_pos ⟨he2a, he2b⟩]
  simp

/-- Evaluation of `atan2` on a polar-form point with radius `r > 0` and angle in
`(-π, π]`. -/
lemma atan2_polar (r θ : ℝ) (hr : 0 < r) (hθ1 : -Real.pi < θ) (hθ2 : θ ≤ Real.pi) :
    atan2 (r * Real.sin θ) (r * Real.cos θ) = θ := by
  rw [atan2]
  have h : ((r * Real.cos θ : ℝ) : ℂ) + ((r * Real.sin θ : ℝ) : ℂ) * Complex.I =
      (r : ℂ) * (Complex.cos (θ : ℂ) + Complex.sin (θ : ℂ) * Complex.I) := by
    push_cast
    ring
  rw [h, Complex.arg_real_mul _ hr, Complex.arg_cos_add_sin_mul_I ⟨hθ1, hθ2⟩]

lemma arctan_three_quarters_bounds :
    Real.pi / 6 < Real.arctan (3 / 4) ∧ Real.arctan (3 / 4) < Real.pi / 4 := by
  have hp := Real.pi_pos
  constructor
  · have h6 : Real.arctan (Real.tan (Real.pi / 6)) = Real.pi / 6 :=
      Real.arctan_tan (by linarith) (by linarith)
    rw [← h6]
    apply Real.arctan_strictMono
    rw [Real.tan_pi_div_six]
    have h43 : (4 : ℝ) / 3 < Real.sqrt 3 := by
      rw [show (4 : ℝ) / 3 < Real.sqrt 3 ↔ ((4 : ℝ) / 3) ^ 2 < 3 from
        Real.lt_sqrt (by norm_num)]
      norm_num
    have hs0 : (0 : ℝ) < Real.sqrt 3 := by positivity
    rw [div_lt_iff hs0]
    nlinarith
  · rw [← Real.arctan_one]
    exact Real.arctan_strictMono (by norm_num)

/-- The degree measure of `arctan (3/4)`, the half-angle between the two IK
shoulder solutions at `c = 0` with the configured arm lengths. -/
noncomputable def tdeg : ℝ := degrees (Real.arctan (3 / 4))

lemma tdeg_bounds : 30 < tdeg ∧ tdeg < 45 := by
  obtain ⟨h1, h2⟩ := arctan_three_quarters_bounds
  have hp := Real.pi_pos
  constructor
  · rw [tdeg, degrees, lt_div_iff hp]
    nlinarith
  · rw [tdeg, degrees, div_lt_iff hp]
    nlinarith

/-- Counterexample target: `(3.75, 3.75·√3)`, at distance 7.5 and polar angle
60° from the shoulder. -/
noncomputable def cex_x : ℝ := 3.75

/-- Counterexample target y coordinate. -/
noncomputable def cex_y : ℝ := 3.75 * Real.sqrt 3

/-- Counterexample loop state: last accepted coordinate `(0, 0)`, last commanded
angles `(90°, 0°)` (a commandable shoulder pose), no stored solution pair. -/
noncomputable def cex_st : CycleState := ⟨none, 0, 0, (90, 0), none⟩

/-- Concrete evaluation: at `(3.75, 3.75·√3)` the IK parameter is `c = 0`, so
the two solutions are `(60° + tdeg, -90°)` and `(60° - tdeg, 90°)`. -/
lemma find_angles_cex :
    find_angles cex_x cex_y arm_lengths =
      .ok [(60 + tdeg, -90), (60 - tdeg, 90)] := by
  rw [arm_lengths_eq]
  have h3 : Real.sqrt 3 ^ 2 = 3 := Real.sq_sqrt (by norm_num)
  have hc : (cex_x ^ 2 + cex_y ^ 2 - 6 ^ 2 - 4.5 ^ 2) / (2 * 6 * 4.5) = 0 := by
    rw [cex_x, cex_y, mul_pow, h3]
    norm_num
  rw [find_angles_ok cex_x cex_y 6 4.5 (by norm_num) (by rw [hc]; norm_num)
    (by rw [hc]; norm_num)]
  rw [hc, Real.arccos_zero]
  rw [Real.sin_neg, Real.cos_neg, Real.sin_pi_div_two, Real.cos_pi_div_two]
  have hp := Real.pi_pos
  have htarget : atan2 cex_y cex_x = Real.pi / 3 := by
    have hx : cex_x = 7.5 * Real.cos (Real.pi / 3) := by
      rw [Real.cos_pi_div_three, cex_x]
      norm_num
    have hy : cex_y = 7.5 * Real.sin (Real.pi / 3) := by
      rw [Real.sin_pi_div_three, cex_y]
      ring
    rw [hx, hy, atan2_polar 7.5 (Real.pi / 3) (by norm_num) (by linarith) (by linarith)]
  have harct : Real.sqrt (1 + (3 / 4 : ℝ) ^ 2) = 5 / 4 := by
    rw [show (1 : ℝ) + (3 / 4) ^ 2 = (5 / 4) ^ 2 by norm_num,
      Real.sqrt_sq (by norm_num)]
  have hcos : Real.cos (Real.arctan (3 / 4)) = 4 / 5 := by
    rw [Real.cos_arctan, harct]
    norm_num
  have hsin : Real.sin (Real.arctan (3 / 4)) = 3 / 5 := by
    rw [Real.sin_arctan, harct]
    norm_num
  obtain ⟨hb1, hb2⟩ := arctan_three_quarters_bounds
  have hneg : atan2 (4.5 * -1) (6 + 4.5 * 0) = -Real.arctan (3 / 4) := by
    have e1 : (4.5 : ℝ) * -1 = 7.5 * Real.sin (-Real.arctan (3 / 4)) := by
      rw [Real.sin_neg, hsin]
      norm_num
    have e2 : (6 : ℝ) + 4.5 * 0 = 7.5 * Real.cos (-Real.arctan (3 / 4)) := by
      rw [Real.cos_neg, hcos]
      norm_num
    rw [e1, e2, atan2_polar 7.5 (-Real.arctan (3 / 4)) (by norm_num)
      (by linarith) (by linarith)]
  have hposa : atan2 (4.5 * 1) (6 + 4.5 * 0) = Real.arctan (3 / 4) := by
    have e1 : (4.5 : ℝ) * 1 = 7.5 * Real.sin (Real.arctan (3 / 4)) := by
      rw [hsin]
      norm_num
    have e2 : (6 : ℝ) + 4.5 * 0 = 7.5 * Real.cos (Real.arctan (3 / 4)) := by
      rw [hcos]
      norm_num
    rw [e1, e2, atan2_polar 7.5 (Real.arctan (3 / 4)) (by norm_num)
      (by linarith) (by linarith)]
  rw [htarget, hneg, hposa]
  have hd1 : degrees (Real.pi / 3 - -Real.arctan (3 / 4)) = 60 + tdeg := by
    rw [degrees, tdeg, degrees]
    field_simp
    ring
  have hd2 : degrees (Real.pi / 3 - Real.arctan (3 / 4)) = 60 - tdeg := by
    rw [degrees, tdeg, degrees]
    field_simp
    ring
  have hd3 : degrees (-(Real.pi / 2)) = -90 := by
    rw [degrees, div_eq_iff (Real.pi_ne_zero)]
    ring
  have hd4 : degrees (Real.pi / 2) = 90 := by
    rw [degrees, div_eq_iff (Real.pi_ne_zero)]
    ring
  rw [hd1, hd2, hd3, hd4]

/-- C6 counterexample: an accepted tracking cycle in which `find_angles` returns
two solution pairs and the loop commands the solution whose shoulder angle is
FARTHER from the previously commanded shoulder angle.  From previous shoulder
90°, the candidates are `60° + tdeg ≈ 96.9°` (closer) and `60° - tdeg ≈ 23.1°`
(farther); the closer one lies outside the shoulder's ±90° range, its
`set_angle` raises `ValueError`, and the fallback commands the farther one. -/
theorem auto_cycle_closer_shoulder_cex :
    find_angles cex_x cex_y arm_lengths = .ok [(60 + tdeg, -90), (60 - tdeg, 90)] ∧
    |60 + tdeg - (90 : ℝ)| < |60 - tdeg - (90 : ℝ)| ∧
    (auto_operation_cycle (.ok (some (cex_x, cex_y))) cex_st).2.1 =
      [Cmd.setAngle .shoulder (some (60 - tdeg)), Cmd.setAngle .elbow (some 90)] ∧
    (auto_operation_cycle (.ok (some (cex_x, cex_y))) cex_st).1.angles0 =
      (60 - tdeg, 90) := by
  obtain ⟨ht30, ht45⟩ := tdeg_bounds
  have habs1 : |60 + tdeg - (90 : ℝ)| = tdeg - 30 := by
    rw [show 60 + tdeg - (90 : ℝ) = tdeg - 30 by ring, abs_of_pos (by linarith)]
  have habs2 : |60 - tdeg - (90 : ℝ)| = 30 + tdeg := by
    rw [show 60 - tdeg - (90 : ℝ) = -(30 + tdeg) by ring, abs_neg,
      abs_of_pos (by linarith)]
  have hgx : |cex_x - cex_st.x0| ≥ 0.1 := by
    rw [show cex_x - cex_st.x0 = 3.75 from by rw [cex_x]; norm_num [cex_st]]
    rw [show |(3.75 : ℝ)| = 3.75 from by norm_num]
    norm_num
  have hgy : |cex_y - cex_st.y0| ≥ 0.1 := by
    have hs3 : (1 : ℝ) ≤ Real.sqrt 3 := Real.le_sqrt_of_sq_le (by norm_num)
    have hy : cex_y - cex_st.y0 = 3.75 * Real.sqrt 3 := by
      rw [cex_y]
      norm_num [cex_st]
    rw [hy, abs_of_pos (by nlinarith)]
    nlinarith
  have horder : order_solutions (60 + tdeg, -90) (60 - tdeg, 90) cex_st.angles0 =
      ((60 + tdeg, -90), (60 - tdeg, 90)) := by
    rw [order_solutions]
    rw [if_neg]
    rw [show ((60 + tdeg, (-90 : ℝ))).1 = 60 + tdeg from rfl,
      show ((60 - tdeg, (90 : ℝ))).1 = 60 - tdeg from rfl,
      show (cex_st.angles0).1 = (90 : ℝ) from rfl, habs1, habs2]
    intro hcon
    linarith
  have hsv1 : ¬(0 ≤ shoulder.servo_angle (60 + tdeg) ∧
      shoulder.servo_angle (60 + tdeg) ≤ 180) := by
    have hval : shoulder.servo_angle (60 + tdeg) = 30 - tdeg := by
      rw [shoulder, Joint.servo_angle]
      norm_num
      ring
    rw [hval]
    rintro ⟨hcon, -⟩
    linarith
  have hsv2a : 0 ≤ shoulder.servo_angle (60 - tdeg) := by
    have hval : shoulder.servo_angle (60 - tdeg) = 30 + tdeg := by
      rw [shoulder, Joint.servo_angle]
      norm_num
      ring
    rw [hval]
    linarith
  have hsv2b : shoulder.servo_angle (60 - tdeg) ≤ 180 := by
    have hval : shoulder.servo_angle (60 - tdeg) = 30 + tdeg := by
      rw [shoulder, Joint.servo_angle]
      norm_num
      ring
    rw [hval]
    linarith
  have hev : elbow.servo_angle (90 : ℝ) = 135 := by
    rw [elbow, Joint.servo_angle]
    norm_num
  have hcycle : auto_operation_cycle (.ok (some (cex_x, cex_y))) cex_st =
      ({ { cex_st with xv := some (cex_x, cex_y), x0 := cex_x, y0 := cex_y } with
          angles := some ((60 + tdeg, -90), (60 - tdeg, 90)), angles0 := (60 - tdeg, 90) },
       [Cmd.setAngle .shoulder (some (60 - tdeg)), Cmd.setAngle .elbow (some 90)],
       false) := by
    rw [auto_cycle_accept cex_x cex_y cex_st hgx hgy]
    exact ik_resolve_fallback_ok
      { cex_st with xv := some (cex_x, cex_y), x0 := cex_x, y0 := cex_y }
      cex_x cex_y (60 + tdeg, -90) (60 - tdeg, 90) (60 + tdeg, -90) (60 - tdeg, 90)
      find_angles_cex horder hsv1 hsv2a hsv2b (by rw [hev]; norm_num)
      (by rw [hev]; norm_num)
  refine ⟨find_angles_cex, ?_, ?_, ?_⟩
  · rw [habs1, habs2]
    linarith
  · rw [hcycle]
  · rw [hcycle]

/-- C6 (amended): in every accepted tracking cycle in which `find_angles`
returns two solution pairs, the pair attempted first (the preferred one) is the
one whose shoulder angle is closer in absolute difference to the previously
commanded shoulder angle `angles0[0]`; when its servo writes are acceptable it
is exactly the pair commanded and recorded, but when its shoulder write is
rejected (shoulder outside ±90°) the `except ValueError` fallback commands the
other — farther — solution instead (so the frozen "always commands the closer"
is false; see `auto_cycle_closer_shoulder_cex`).  In particular with previous
shoulder angle 10° and candidate shoulder angles 12° and 170°, the 12° solution
is selected. -/
theorem auto_cycle_selects_closer_shoulder :
    (∀ (x y : ℝ) (st : CycleState) (p1 p2 q1 q2 : ℝ × ℝ),
      |x - st.x0| ≥ 0.1 → |y - st.y0| ≥ 0.1 →
      find_angles x y arm_lengths = .ok [p1, p2] →
      order_solutions p1 p2 st.angles0 = (q1, q2) →
      |q1.1 - st.angles0.1| ≤ |q2.1 - st.angles0.1| ∧
      (0 ≤ shoulder.servo_angle q1.1 → shoulder.servo_angle q1.1 ≤ 180 →
       0 ≤ elbow.servo_angle q1.2 → elbow.servo_angle q1.2 ≤ 180 →
       (auto_operation_cycle (.ok (some (x, y))) st).2.1 =
         [Cmd.setAngle .shoulder (some q1.1), Cmd.setAngle .elbow (some q1.2)] ∧
       (auto_operation_cycle (.ok (some (x, y))) st).1.angles0 = q1)) ∧
    (∀ (x y : ℝ) (st : CycleState) (p1 p2 q1 q2 : ℝ × ℝ),
      |x - st.x0| ≥ 0.1 → |y - st.y0| ≥ 0.1 →
      find_angles x y arm_lengths = .ok [p1, p2] →
      order_solutions p1 p2 st.angles0 = (q1, q2) →
      ¬(0 ≤ shoulder.servo_angle q1.1 ∧ shoulder.servo_angle q1.1 ≤ 180) →
      0 ≤ shoulder.servo_angle q2.1 → shoulder.servo_angle q2.1 ≤ 180 →
      0 ≤ elbow.servo_angle q2.2 → elbow.servo_angle q2.2 ≤ 180 →
      (auto_operation_cycle (.ok (some (x, y))) st).2.1 =
        [Cmd.setAngle .shoulder (some q2.1), Cmd.setAngle .elbow (some q2.2)] ∧
      (auto_operation_cycle (.ok (some (x, y))) st).1.angles0 = q2) ∧
    (∀ e e' t : ℝ, order_solutions (12, e) (170, e') (10, t) = ((12, e), (170, e'))) := by
  refine ⟨?_, ?_, ?_⟩
  · intro x y st p1 p2 q1 q2 hgx hgy hik hq
    constructor
    · by_cases hsw : |p1.1 - st.angles0.1| > |p2.1 - st.angles0.1|
      · rw [order_solutions, if_pos hsw] at hq
        injection hq with h1 h2
        rw [← h1, ← h2]
        exact le_of_lt hsw
      · rw [order_solutions, if_neg hsw] at hq
        injection hq with h1 h2
        rw [← h1, ← h2]
        exact not_lt.mp hsw
    · intro hs1 hs2 he1 he2
      rw [auto_cycle_accept x y st hgx hgy]
      rw [ik_resolve_ok { st with xv := some (x, y), x0 := x, y0 := y } x y
        p1 p2 q1 q2 hik hq hs1 hs2 he1 he2]
      exact ⟨rfl, rfl⟩
  · intro x y st p1 p2 q1 q2 hgx hgy hik hq hs hs2a hs2b he2a he2b
    rw [auto_cycle_accept x y st hgx hgy]
    rw [ik_resolve_fallback_ok { st with xv := some (x, y), x0 := x, y0 := y } x y
      p1 p2 q1 q2 hik hq hs hs2a hs2b he2a he2b]
    exact ⟨rfl, rfl⟩
  · intro e e' t
    rw [order_solutions]
    rw [if_neg (by norm_num)]

/-- C6 witness: for the accepted target `(10.5, 0)` from state
`(x0, y0) = (0, -1)`, `angles0 = (0, 0)`, both solutions are `(0°, 0°)`; the
theorem yields the preference inequality and the commanded pair. -/
theorem auto_cycle_selects_closer_shoulder_witness :
    (|(10.5 : ℝ) - 0| ≥ 0.1 ∧ |(0 : ℝ) - (-1)| ≥ 0.1 ∧
     find_angles 10.5 0 arm_lengths = .ok [((0 : ℝ), (0 : ℝ)), (0, 0)] ∧
     order_solutions ((0 : ℝ), (0 : ℝ)) (0, 0) ((0 : ℝ), (0 : ℝ)) =
       (((0 : ℝ), (0 : ℝ)), (0, 0))) ∧
    (0 ≤ shoulder.servo_angle (0 : ℝ) ∧ shoulder.servo_angle (0 : ℝ) ≤ 180 ∧
     0 ≤ elbow.servo_angle (0 : ℝ) ∧ elbow.servo_angle (0 : ℝ) ≤ 180) ∧
    (|((0 : ℝ), (0 : ℝ)).1 - (⟨none, 0, -1, (0, 0), none⟩ : CycleState).angles0.1| ≤
       |((0 : ℝ), (0 : ℝ)).1 - (⟨none, 0, -1, (0, 0), none⟩ : CycleState).angles0.1| ∧
     (auto_operation_cycle (.ok (some (10.5, 0)))
         ⟨none, 0, -1, (0, 0), none⟩).2.1 =
       [Cmd.setAngle .shoulder (some (0 : ℝ)),
        Cmd.setAngle .elbow (some (0 : ℝ))] ∧
     (auto_operation_cycle (.ok (some (10.5, 0)))
         ⟨none, 0, -1, (0, 0), none⟩).1.angles0 = ((0 : ℝ), (0 : ℝ))) := by
  have horder : order_solutions ((0 : ℝ), (0 : ℝ)) (0, 0) ((0 : ℝ), (0 : ℝ)) =
      (((0 : ℝ), (0 : ℝ)), (0, 0)) := by
    rw [order_solutions]
    norm_num
  have hgx : |(10.5 : ℝ) - 0| ≥ 0.1 := by
    rw [show |(10.5 : ℝ) - 0| = 10.5 from by norm_num]
    norm_num
  have hgy : |(0 : ℝ) - (-1)| ≥ 0.1 := by
    rw [show |(0 : ℝ) - (-1)| = 1 from by norm_num]
    norm_num
  have hsv : shoulder.servo_angle (0 : ℝ) = 90 := by
    rw [shoulder, Joint.servo_angle]
    norm_num
  have hev : elbow.servo_angle (0 : ℝ) = 90 := by
    rw [elbow, Joint.servo_angle]
    norm_num
  have hmain := (auto_cycle_selects_closer_shoulder).1 10.5 0
    ⟨none, 0, -1, (0, 0), none⟩ ((0 : ℝ), (0 : ℝ)) (0, 0) ((0 : ℝ), (0 : ℝ)) (0, 0)
    hgx hgy find_angles_ten_five horder
  have hinner := hmain.2 (by rw [hsv]; norm_num) (by rw [hsv]; norm_num)
    (by rw [hev]; norm_num) (by rw [hev]; norm_num)
  exact ⟨⟨hgx, hgy, find_angles_ten_five, horder⟩,
    ⟨by rw [hsv]; norm_num, by rw [hsv]; norm_num,
     by rw [hev]; norm_num, by rw [hev]; norm_num⟩,
    hmain.1, hinner.1, hinner.2⟩

/-- C7: a tracking cycle with a present observation `(x, y)` proceeds to IK
resolution (with `(x0, y0)` updated to the accepted coordinate) exactly when both
axis differences against the last accepted coordinate reach the 0.1 threshold;
when either axis difference is below 0.1 — no matter how large the other is — no
actuation command is issued and the control state `(x0, y0, angles0)` (and the
stored solution pair) is left unchanged, with no error reported. -/
theorem auto_cycle_threshold_gate (x y : ℝ) (st : CycleState) :
    ((|x - st.x0| ≥ 0.1 ∧ |y - st.y0| ≥ 0.1) →
      auto_operation_cycle (.ok (some (x, y))) st =
        ik_resolve { st with xv := some (x, y), x0 := x, y0 := y } x y) ∧
    ((|x - st.x0| < 0.1 ∨ |y - st.y0| < 0.1) →
      (auto_operation_cycle (.ok (some (x, y))) st).2.1 = [] ∧
      (auto_operation_cycle (.ok (some (x, y))) st).1.x0 = st.x0 ∧
      (auto_operation_cycle (.ok (some (x, y))) st).1.y0 = st.y0 ∧
      (auto_operation_cycle (.ok (some (x, y))) st).1.angles0 = st.angles0 ∧
      (auto_operation_cycle (.ok (some (x, y))) st).1.angles = st.angles ∧
      (auto_operation_cycle (.ok (some (x, y))) st).2.2 = false) := by
  constructor
  · intro hg
    exact auto_cycle_accept x y st hg.1 hg.2
  · intro hlt
    have hneg : ¬(|x - st.x0| ≥ 0.1 ∧ |y - st.y0| ≥ 0.1) := by
      rcases hlt with h | h
      · exact fun hc => absurd hc.1 (not_le.mpr h)
      · exact fun hc => absurd hc.2 (not_le.mpr h)
    rw [auto_cycle_reject x y st hneg]
    exact ⟨rfl, rfl, rfl, rfl, rfl, rfl⟩

/-- C7 witness: from `(x0, y0) = (0, 0)`, the observation `(5, 0.05)` moved far
on the x axis but below threshold on the y axis, so the cycle is a no-op. -/
theorem auto_cycle_threshold_gate_witness :
    (|(5 : ℝ) - 0| < 0.1 ∨ |(0.05 : ℝ) - 0| < 0.1) ∧
    ((auto_operation_cycle (.ok (some (5, 0.05)))
        ⟨none, 0, 0, (1, 2), some ((3, 4), (5, 6))⟩).2.1 = [] ∧
     (auto_operation_cycle (.ok (some (5, 0.05)))
        ⟨none, 0, 0, (1, 2), some ((3, 4), (5, 6))⟩).1.x0 = 0 ∧
     (auto_operation_cycle (.ok (some (5, 0.05)))
        ⟨none, 0, 0, (1, 2), some ((3, 4), (5, 6))⟩).1.y0 = 0 ∧
     (auto_operation_cycle (.ok (some (5, 0.05)))
        ⟨none, 0, 0, (1, 2), some ((3, 4), (5, 6))⟩).1.angles0 = (1, 2) ∧
     (auto_operation_cycle (.ok (some (5, 0.05)))
        ⟨none, 0, 0, (1, 2), some ((3, 4), (5, 6))⟩).1.angles = some ((3, 4), (5, 6)) ∧
     (auto_operation_cycle (.ok (some (5, 0.05)))
        ⟨none, 0, 0, (1, 2), some ((3, 4), (5, 6))⟩).2.2 = false) := by
  have h : |(5 : ℝ) - 0| < 0.1 ∨ |(0.05 : ℝ) - 0| < 0.1 := by
    refine Or.inr ?_
    rw [show |(0.05 : ℝ) - 0| = 0.05 from by norm_num]
    norm_num
  exact ⟨h, (auto_cycle_threshold_gate 5 0.05 ⟨none, 0, 0, (1, 2), some ((3, 4), (5, 6))⟩).2 h⟩

/-! ## Imaging pipeline (src/scara_imaging.py)

The stages upstream of the repository's own logic (frame capture, fisheye
remap, HSV threshold, `cv.findContours`, `cv.boundingRect`, `cv.moments`) are
external OpenCV calls; a frame is therefore represented by the list of contours
the mask produces, each contour carrying its pixel boundary and its moment
values.  The arithmetic of the repository's code on that data is embedded over
`ℚ` (Python float arithmetic, exact here), with `ZeroDivisionError` explicit. -/

/-- A contour of the binary mask: its boundary pixels (from `cv.findContours`
with `CHAIN_APPROX_SIMPLE`) and its image moments `m00, m10, m01` (the values
`cv.moments` reports for it, carried as data since `cv.moments` is external). -/
structure Contour where
  pts : List (ℤ × ℤ)
  m00 : ℚ
  m10 : ℚ
  m01 : ℚ
deriving DecidableEq

/-- Sort key of `find_target`'s helper `arraysize` (src/scara_imaging.py lines
57-60): the numpy `array.size` of a contour of `n` points, whose shape is
`(n, 1, 2)`, is `2·n`. -/
def arraysize (c : Contour) : ℕ := 2 * c.pts.length

/-- Width of `cv.boundingRect` of a contour: `max x - min x + 1`. -/
def bounding_w (c : Contour) : ℤ :=
  match c.pts with
  | [] => 0
  | p :: ps => (ps.foldl (fun m q => max m q.1) p.1) -
      (ps.foldl (fun m q => min m q.1) p.1) + 1

/-- Height of `cv.boundingRect` of a contour: `max y - min y + 1`. -/
def bounding_h (c : Contour) : ℤ :=
  match c.pts with
  | [] => 0
  | p :: ps => (ps.foldl (fun m q => max m q.2) p.2) -
      (ps.foldl (fun m q => min m q.2) p.2) + 1

/-- The acceptance test of the selection loop (src/scara_imaging.py line 76):
`abs(w - h) <= 3 and w > 19`. -/
def qualifies (c : Contour) : Bool :=
  decide ((bounding_w c - bounding_h c).natAbs ≤ 3) && decide (19 < bounding_w c)

/-- Stable insertion into a list sorted by decreasing `arraysize`: an element
inserted from the left goes before any equal-sized element already present,
reproducing the stable descending order of Python's `list.sort(reverse=True,
key=arraysize)` (src/scara_imaging.py line 70). -/
def insertDesc (a : Contour) : List Contour → List Contour
  | [] => [a]
  | b :: bs => if arraysize b ≤ arraysize a then a :: b :: bs else b :: insertDesc a bs

/-- Stable descending sort by `arraysize` (src/scara_imaging.py line 70). -/
def sortDesc : List Contour → List Contour
  | [] => []
  | a :: l => insertDesc a (sortDesc l)

/-- Target selection (src/scara_imaging.py lines 70-78): iterate through the
reverse-sorted contour list and take the first contour passing `qualifies`. -/
def select (contours : List Contour) : Option Contour :=
  (sortDesc contours).find? qualifies

/-- Python `int()` truncation toward zero of a rational. -/
def pyInt (q : ℚ) : ℤ := q.num.tdiv q.den

/-- The centroid part of `ScaraImage.find_target` (src/scara_imaging.py lines
80-91): if a target was selected, `cx = int(m10/m00)`, `cy = int(m01/m00)` —
Python float division raises `ZeroDivisionError` when `m00 == 0`; if no target
qualifies the result is `(None, None)`. -/
def image_find_target (contours : List Contour) : Except PyErr (Option (ℤ × ℤ)) :=
  match select contours with
  | none => .ok none
  | some target =>
    if target.m00 = 0 then .error .zeroDivisionError
    else .ok (some (pyInt (target.m10 / target.m00), pyInt (target.m01 / target.m00)))

/-- The 3×3 perspective-transform matrix, row-major (`warp_matrix[i][j]`). -/
structure WarpMatrix where
  m00 : ℚ
  m01 : ℚ
  m02 : ℚ
  m10 : ℚ
  m11 : ℚ
  m12 : ℚ
  m20 : ℚ
  m21 : ℚ
  m22 : ℚ
deriving DecidableEq

/-- A numpy float64 value as it flows through the warp and unit-conversion
arithmetic: a finite value (exact here), a signed infinity, or NaN.  The warp
matrix is a numpy float64 array (built by `np.array(np.mat(...))` in
`read_config` or by `cv.getPerspectiveTransform`), so all arithmetic from
`ScaraImage.warp` onward is numpy scalar arithmetic, which never raises on a
zero denominator — it yields `±inf` (or NaN for `0/0`) with a RuntimeWarning. -/
inductive PyFloat
  | finite (q : ℚ)
  | posInf
  | negInf
  | nan
deriving DecidableEq

/-- Whether a float64 value is finite. -/
def PyFloat.isFinite : PyFloat → Bool
  | .finite _ => true
  | _ => false

/-- numpy float64 division of finite operands: a zero denominator yields a
signed infinity (or NaN for `0/0`) instead of raising `ZeroDivisionError`. -/
def np_div (num denom : ℚ) : PyFloat :=
  if denom = 0 then
    if num = 0 then .nan else if 0 < num then .posInf else .negInf
  else .finite (num / denom)

/-- Multiplication of a float64 value by a finite rational constant (numpy
semantics: `±inf · c` keeps or flips the sign with the sign of `c`, `±inf · 0`
is NaN, NaN propagates). -/
def PyFloat.mulq : PyFloat → ℚ → PyFloat
  | .finite q, c => .finite (q * c)
  | .posInf, c => if c = 0 then .nan else if 0 < c then .posInf else .negInf
  | .negInf, c => if c = 0 then .nan else if 0 < c then .negInf else .posInf
  | .nan, _ => .nan

/-- Subtraction of a float64 value from a finite rational constant (numpy
semantics: `a - (±inf) = ∓inf`, NaN propagates). -/
def PyFloat.subl : ℚ → PyFloat → PyFloat
  | a, .finite q => .finite (a - q)
  | _, .posInf => .negInf
  | _, .negInf => .posInf
  | _, .nan => .nan

/-- `ScaraImage.warp` (src/scara_imaging.py lines 93-117): homogeneous mapping of
the pixel centroid through the warp matrix with numpy float64 division — a zero
denominator produces non-finite coordinates rather than raising; `(None, None)`
passes through. -/
def warp (W : WarpMatrix) (c : Option (ℤ × ℤ)) : Option (PyFloat × PyFloat) :=
  match c with
  | none => none
  | some (cx, cy) =>
    some (np_div (W.m00 * (cx : ℚ) + W.m01 * (cy : ℚ) + W.m02)
            (W.m20 * (cx : ℚ) + W.m21 * (cy : ℚ) + W.m22),
          np_div (W.m10 * (cx : ℚ) + W.m11 * (cy : ℚ) + W.m12)
            (W.m20 * (cx : ℚ) + W.m21 * (cy : ℚ) + W.m22))

/-- `ScaraImage.get_real_coords` (src/scara_imaging.py lines 119-128): pixel to
inch conversion, `target_x = 11.5 - cy·12/334`, `target_y = 11.5 - cx·23/640`.
`cy·12/334` is modelled as multiplication by the positive constant `12/334`,
which agrees with the source's `(cy·12)/334` on every float64 class (finite
values exactly, and `±inf`/NaN propagate identically). -/
def get_real_coords (c : Option (PyFloat × PyFloat)) : Option (PyFloat × PyFloat) :=
  match c with
  | none => none
  | some (cxc, cyc) =>
    some (PyFloat.subl 11.5 (cyc.mulq (12 / 334)),
          PyFloat.subl 11.5 (cxc.mulq (23 / 640)))

/-- Python `round(x, 2)` on a finite value, as exact rational rounding.  (Python
rounds float halves to even; no claim depends on the tie behaviour.) -/
def round2 (q : ℚ) : ℚ := ((round (q * 100) : ℤ) : ℚ) / 100

/-- Python `round(x, 2)` on a float64 value: finite values are rounded,
`round(±inf, 2) = ±inf` and `round(nan, 2) = nan` (no exception). -/
def round2f : PyFloat → PyFloat
  | .finite q => .finite (round2 q)
  | v => v

/-- The module-level `find_target` (src/scara_imaging.py lines 246-268): select a
contour and compute its centroid, warp it, convert to physical units, and round
to two decimals when present.  The centroid division (plain Python floats from
`cv.moments`) can raise `ZeroDivisionError`, which propagates to the caller; the
warp stage never raises but can yield non-finite coordinates. -/
def find_target (contours : List Contour) (W : WarpMatrix) :
    Except PyErr (Option (PyFloat × PyFloat)) :=
  match image_find_target contours with
  | .error e => .error e
  | .ok c =>
    match get_real_coords (warp W c) with
    | none => .ok none
    | some (tx, ty) => .ok (some (round2f tx, round2f ty))

/-! Claim-side definitions for C8, written from the spec's words rather than the
source, to compare against `select`. -/

/-- Modelled from the spec: the claim's acceptance test, which discards a contour
when the bounding sides differ by more than 3 px or the width is below the 19 px
minimum (so width exactly 19 is kept). -/
def claim_qualifies (c : Contour) : Bool :=
  decide ((bounding_w c - bounding_h c).natAbs ≤ 3) && decide (19 ≤ bounding_w c)

/-- Twice the enclosed (shoelace) area of a closed pixel polygon, the quantity
`cv.contourArea` computes; used to express the claim's "greatest area". -/
def shoelaceAux (p0 : ℤ × ℤ) : List (ℤ × ℤ) → ℤ
  | [] => 0
  | [p] => p.1 * p0.2 - p0.1 * p.2
  | p :: q :: r => (p.1 * q.2 - q.1 * p.2) + shoelaceAux p0 (q :: r)

/-- Twice the polygon area of a contour. -/
def contour_area2 (c : Contour) : ℤ :=
  match c.pts with
  | [] => 0
  | p :: ps => |shoelaceAux p (p :: ps)|

/-- Modelled from the spec: among the contours passing `claim_qualifies`, pick
the one with greatest area, breaking exact-area ties by first encounter. -/
def claim_select : List Contour → Option Contour
  | [] => none
  | c :: cs =>
    if claim_qualifies c then
      match claim_select cs with
      | none => some c
      | some d => if contour_area2 d > contour_area2 c then some d else some c
    else claim_select cs

/-! ## Sortedness facts about target selection -/

lemma mem_insertDesc {a x : Contour} {l : List Contour} :
    x ∈ insertDesc a l ↔ x = a ∨ x ∈ l := by
  induction l with
  | nil => simp [insertDesc]
  | cons b bs ih =>
    rw [insertDesc]
    by_cases h : arraysize b ≤ arraysize a
    · rw [if_pos h]
      simp [List.mem_cons]
    · rw [if_neg h]
      simp only [List.mem_cons, ih]
      tauto

lemma sortedDesc_insertDesc {a : Contour} {l : List Contour}
    (h : List.Pairwise (fun u v => arraysize v ≤ arraysize u) l) :
    List.Pairwise (fun u v => arraysize v ≤ arraysize u) (insertDesc a l) := by
  induction l with
  | nil => simp [insertDesc]
  | cons b bs ih =>
    rw [insertDesc]
    rcases List.pairwise_cons.mp h with ⟨hb, hbs⟩
    by_cases hc : arraysize b ≤ arraysize a
    · rw [if_pos hc]
      refine List.pairwise_cons.mpr ⟨?_, h⟩
      intro y hy
      rcases List.mem_cons.mp hy with rfl | hy
      · exact hc
      · exact le_trans (hb y hy) hc
    · rw [if_neg hc]
      refine List.pairwise_cons.mpr ⟨?_, ih hbs⟩
      intro y hy
      rcases mem_insertDesc.mp hy with rfl | hy
      · exact le_of_lt (not_le.mp hc)
      · exact hb y hy

lemma sortedDesc_sortDesc (l : List Contour) :
    List.Pairwise (fun u v => arraysize v ≤ arraysize u) (sortDesc l) := by
  induction l with
  | nil => simp [sortDesc]
  | cons a l ih =>
    rw [sortDesc]
    exact sortedDesc_insertDesc ih

lemma mem_sortDesc {x : Contour} {l : List Contour} : x ∈ sortDesc l ↔ x ∈ l := by
  induction l with
  | nil => simp [sortDesc]
  | cons a l ih =>
    rw [sortDesc, mem_insertDesc]
    simp [List.mem_cons, ih]

lemma find?_max_of_sorted {l : List Contour} {t : Contour}
    (hs : List.Pairwise (fun u v => arraysize v ≤ arraysize u) l)
    (h : l.find? qualifies = some t) :
    ∀ c ∈ l, qualifies c = true → arraysize c ≤ arraysize t := by
  induction l with
  | nil => simp at h
  | cons b bs ih =>
    rcases List.pairwise_cons.mp hs with ⟨hb, hbs⟩
    by_cases hq : qualifies b = true
    · rw [List.find?_cons_of_pos _ hq] at h
      injection h with h
      subst h
      intro c hc _
      rcases List.mem_cons.mp hc with rfl | hc
      · exact le_refl _
      · exact hb c hc
    · rw [List.find?_cons_of_neg _ (by simpa using hq)] at h
      intro c hc hcq
      rcases List.mem_cons.mp hc with rfl | hc
      · exact absurd hcq hq
      · exact ih hbs h c hc hcq

/-- Key step for the tie-break: finding the first qualifying contour after a
stable descending insertion is decided by comparing the inserted contour with
the first qualifying contour of the sorted remainder — strictly larger earlier
elements win, and on equal sizes the inserted (originally earlier) one wins. -/
lemma find?_insertDesc {c : Contour} {l : List Contour}
    (hs : List.Pairwise (fun u v => arraysize v ≤ arraysize u) l) :
    (insertDesc c l).find? qualifies =
      if qualifies c then
        match l.find? qualifies with
        | none => some c
        | some d => if arraysize d > arraysize c then some d else some c
      else l.find? qualifies := by
  induction l with
  | nil =>
    rw [insertDesc]
    by_cases hc : qualifies c
    · rw [List.find?_cons_of_pos _ hc, if_pos hc]
      rfl
    · rw [List.find?_cons_of_neg _ (by simpa using hc), if_neg hc]
  | cons b bs ih =>
    rcases List.pairwise_cons.mp hs with ⟨hb, hbs⟩
    by_cases hle : arraysize b ≤ arraysize c
    · rw [insertDesc, if_pos hle]
      by_cases hc : qualifies c
      · rw [List.find?_cons_of_pos _ hc, if_pos hc]
        rcases hd : (b :: bs).find? qualifies with _ | d
        · rfl
        · have hdmem := List.mem_of_find?_eq_some hd
          have hdle : arraysize d ≤ arraysize c := by
            rcases List.mem_cons.mp hdmem with rfl | hdm
            · exact hle
            · exact le_trans (hb d hdm) hle
          simp only
          rw [if_neg (not_lt.mpr hdle)]
      · rw [List.find?_cons_of_neg _ (by simpa using hc), if_neg hc]
    · rw [insertDesc, if_neg hle]
      have hlt : arraysize c < arraysize b := not_le.mp hle
      by_cases hqb : qualifies b = true
      · have hbb : (b :: bs).find? qualifies = some b := List.find?_cons_of_pos _ hqb
        have hbL : (b :: insertDesc c bs).find? qualifies = some b :=
          List.find?_cons_of_pos _ hqb
        rw [hbb, hbL]
        by_cases hc : qualifies c
        · rw [if_pos hc]
          simp only
          rw [if_pos hlt]
        · rw [if_neg hc]
      · have hbb : (b :: bs).find? qualifies = bs.find? qualifies :=
          List.find?_cons_of_neg _ (by simpa using hqb)
        have hbL : (b :: insertDesc c bs).find? qualifies =
            (insertDesc c bs).find? qualifies :=
          List.find?_cons_of_neg _ (by simpa using hqb)
        rw [hbb, hbL, ih hbs]

/-- The contour `select` picks, characterized as a direct left-to-right
recursion: walk the original contour list keeping the first qualifying contour
seen, replacing it only when a later qualifying contour has strictly greater
array size — i.e. greatest size with ties broken by first encounter. -/
def size_select : List Contour → Option Contour
  | [] => none
  | c :: cs =>
    if qualifies c then
      match size_select cs with
      | none => some c
      | some d => if arraysize d > arraysize c then some d else some c
    else size_select cs

/-- The sort-then-scan selection of the source equals the direct greatest-size,
first-encounter-tie-break recursion, by stability of the descending sort. -/
lemma select_eq_size_select (cs : List Contour) : select cs = size_select cs := by
  induction cs with
  | nil => rfl
  | cons c cs ih =>
    rw [select] at ih
    rw [select, sortDesc, find?_insertDesc (sortedDesc_sortDesc cs), ih, size_select]

/-! ## Concrete mask data for claims C3 and C8 -/

/-- A 30×30 square blob's contour (4 boundary vertices after
`CHAIN_APPROX_SIMPLE`), with its moments: area `m00 = 841`, centroid `(10, 10)`
chosen via `m10 = m01 = 8410`. -/
def blob30 : Contour := ⟨[(0, 0), (29, 0), (29, 29), (0, 29)], 841, 8410, 8410⟩

/-- A staircase-shaped blob inside a 21×21 bounding box: 8 boundary vertices
(so a larger point array than `blob30`) but a smaller enclosed area (325). -/
def stair21 : Contour :=
  ⟨[(0, 0), (20, 0), (20, 10), (15, 10), (15, 15), (10, 15), (10, 20), (0, 20)],
   325, 0, 0⟩

/-- A 5×40 noise blob: its bounding box is far from square. -/
def noise5x40 : Contour := ⟨[(0, 0), (4, 0), (4, 39), (0, 39)], 176, 0, 0⟩

/-- A 19×19 square blob: exactly at the width threshold. -/
def square19 : Contour := ⟨[(0, 0), (18, 0), (18, 18), (0, 18)], 324, 0, 0⟩

/-- A 21×21 square blob: qualifying, with the same 4-vertex contour point count
as `blob30` — an exact-size tie partner. -/
def square21 : Contour := ⟨[(0, 0), (20, 0), (20, 20), (0, 20)], 400, 0, 0⟩

/-- The `blob30` contour with a degenerate zero area moment. -/
def zero_m00_blob : Contour := ⟨[(0, 0), (29, 0), (29, 29), (0, 29)], 0, 1, 1⟩

/-- The identity warp matrix. -/
def warp_id : WarpMatrix := ⟨1, 0, 0, 0, 1, 0, 0, 0, 1⟩

/-- A warp matrix whose bottom row is zero: the homography denominator vanishes
at every centroid. -/
def warp_degenerate : WarpMatrix := ⟨1, 0, 0, 0, 1, 0, 0, 0, 0⟩

lemma image_find_target_blob30 :
    image_find_target [blob30] = .ok (some (10, 10)) := by
  have h1 : select [blob30] = some blob30 := by decide
  rw [image_find_target, h1]
  simp only
  rw [if_neg (by norm_num [blob30] : ¬blob30.m00 = 0)]
  rw [show blob30.m10 / blob30.m00 = (10 : ℚ) by norm_num [blob30]]
  rw [show blob30.m01 / blob30.m00 = (10 : ℚ) by norm_num [blob30]]
  simp [pyInt]

/-! ## Claim C8: contour selection -/

/-- C8 counterexample: the code selects by contour point-array size, not by
enclosed area, and it discards bounding width exactly 19.  On the mask
`[blob30, stair21]` both contours qualify; the spec's rule (greatest area) picks
the 30×30 square `blob30` (area 841 > 325), but the code picks `stair21`
because its point array is larger (16 > 8).  And a lone 19×19 square is kept by
the spec's rule (width not below the 19 px minimum) but discarded by the code's
strict `w > 19`. -/
theorem select_area_claim_cex :
    select [blob30, stair21] = some stair21 ∧
    claim_select [blob30, stair21] = some blob30 ∧
    qualifies blob30 = true ∧
    contour_area2 stair21 < contour_area2 blob30 ∧
    stair21 ≠ blob30 ∧
    select [square19] = none ∧
    claim_select [square19] = some square19 := by
  refine ⟨by decide, by decide, by decide, by decide, ?_, by decide, by decide⟩
  intro h
  exact absurd (congrArg Contour.pts h) (by decide)

/-- C8 (amended): target selection discards every contour whose bounding-box
width and height differ by more than 3 px or whose bounding width is 19 px or
less, and among the remaining candidates selects the one with the greatest
contour point-array size (the sort key is the numpy array size, not the
enclosed area), breaking exact-size ties deterministically by first encounter:
`select` equals the direct left-to-right recursion `size_select`, which keeps
the earliest qualifying contour unless a strictly larger one follows; when
nothing qualifies, no target is selected.  In particular, on a mask containing
a 30×30 square blob and a 5×40 noise blob (in either order) the 30×30 blob is
selected, and on an exact-size tie between two qualifying 4-vertex squares the
first-listed one is selected. -/
theorem select_spec :
    (∀ (cs : List Contour) (t : Contour), select cs = some t →
      qualifies t = true ∧ t ∈ cs ∧
      ∀ c ∈ cs, qualifies c = true → arraysize c ≤ arraysize t) ∧
    (∀ cs : List Contour, (∀ c ∈ cs, qualifies c = false) → select cs = none) ∧
    (∀ cs : List Contour, select cs = size_select cs) ∧
    select [noise5x40, blob30] = some blob30 ∧
    select [blob30, noise5x40] = some blob30 ∧
    select [blob30, square21] = some blob30 ∧
    select [square21, blob30] = some square21 := by
  refine ⟨?_, ?_, select_eq_size_select, by decide, by decide, by decide, by decide⟩
  · intro cs t h
    rw [select] at h
    refine ⟨List.find?_some h, mem_sortDesc.mp (List.mem_of_find?_eq_some h), ?_⟩
    intro c hc hq
    exact find?_max_of_sorted (sortedDesc_sortDesc cs) h c (mem_sortDesc.mpr hc) hq
  · intro cs hall
    rw [select, List.find?_eq_none]
    intro x hx
    simp [hall x (mem_sortDesc.mp hx)]

/-- C8 witness: the theorem applied to the single-blob mask `[blob30]`. -/
theorem select_spec_witness :
    select [blob30] = some blob30 ∧
    (qualifies blob30 = true ∧ blob30 ∈ [blob30] ∧
     ∀ c ∈ [blob30], qualifies c = true → arraysize c ≤ arraysize blob30) := by
  have h : select [blob30] = some blob30 := by decide
  exact ⟨h, select_spec.1 [blob30] blob30 h⟩

/-! ## Claim C3: perception pipeline failure modes -/

/-- A non-finite float64 value stays non-finite through the pixel-to-inch
conversion and the final rounding. -/
lemma conv_not_finite (a c : ℚ) (v : PyFloat) (h : v.isFinite = false) :
    (round2f (PyFloat.subl a (v.mulq c))).isFinite = false := by
  cases v with
  | finite q => simp [PyFloat.isFinite] at h
  | posInf =>
    rw [PyFloat.mulq]
    split_ifs <;> rfl
  | negInf =>
    rw [PyFloat.mulq]
    split_ifs <;> rfl
  | nan => rfl

/-- numpy division by a zero denominator never yields a finite value. -/
lemma np_div_zero_not_finite (num : ℚ) : (np_div num 0).isFinite = false := by
  rw [np_div, if_pos rfl]
  split_ifs <;> rfl

/-- C3 counterexample: the pipeline's failure modes are not the absent
observation.  With a qualifying contour whose `m00` is zero, the centroid
division raises `ZeroDivisionError` instead of producing `(None, None)` — this
is the exception `auto_operation` catches around `imaging.find_target`
(src/scara.py lines 216-221).  With a valid contour but a warp matrix whose
denominator row vanishes at the centroid, the numpy float64 divisions yield
`+inf`, which the unit conversion turns into `-inf`: the pipeline returns a
present observation with infinite coordinates rather than `(None, None)`. -/
theorem find_target_raises_cex :
    find_target [zero_m00_blob] warp_id = .error .zeroDivisionError ∧
    find_target [blob30] warp_degenerate =
      .ok (some (PyFloat.negInf, PyFloat.negInf)) ∧
    PyFloat.negInf.isFinite = false := by
  refine ⟨by decide, ?_, rfl⟩
  rw [find_target, image_find_target_blob30]
  simp only
  have hw : warp warp_degenerate (some (10, 10)) =
      some (PyFloat.posInf, PyFloat.posInf) := by
    rw [warp]
    norm_num [warp_degenerate, np_div]
  rw [hw]
  have hg : get_real_coords (some (PyFloat.posInf, PyFloat.posInf)) =
      some (PyFloat.negInf, PyFloat.negInf) := by
    rw [get_real_coords]
    norm_num [PyFloat.mulq, PyFloat.subl]
  rw [hg]
  rfl

/-- C3 (amended): if no qualifying contour exists the pipeline returns the
absent observation `(None, None)` without raising; but if the selected
contour's zero-order moment `m00` is zero, the centroid division raises
`ZeroDivisionError` to the caller rather than returning an absent observation;
and if the homography denominator at the centroid is zero, the numpy float64
warp division propagates non-finite (`±inf`/NaN) coordinates to the caller as a
present observation instead of treating it as "not found"; when neither
degeneracy occurs the pipeline returns a present finite observation. -/
theorem find_target_error_modes :
    (∀ (cs : List Contour) (W : WarpMatrix), select cs = none →
      find_target cs W = .ok none) ∧
    (∀ (cs : List Contour) (W : WarpMatrix) (t : Contour), select cs = some t →
      t.m00 = 0 → find_target cs W = .error .zeroDivisionError) ∧
    (∀ (cs : List Contour) (W : WarpMatrix) (t : Contour), select cs = some t →
      t.m00 ≠ 0 →
      W.m20 * ((pyInt (t.m10 / t.m00) : ℤ) : ℚ) +
        W.m21 * ((pyInt (t.m01 / t.m00) : ℤ) : ℚ) + W.m22 = 0 →
      ∃ v1 v2 : PyFloat, find_target cs W = .ok (some (v1, v2)) ∧
        v1.isFinite = false ∧ v2.isFinite = false) ∧
    (∀ (cs : List Contour) (W : WarpMatrix) (t : Contour), select cs = some t →
      t.m00 ≠ 0 →
      W.m20 * ((pyInt (t.m10 / t.m00) : ℤ) : ℚ) +
        W.m21 * ((pyInt (t.m01 / t.m00) : ℤ) : ℚ) + W.m22 ≠ 0 →
      ∃ q1 q2 : ℚ, find_target cs W = .ok (some (.finite q1, .finite q2))) := by
  refine ⟨?_, ?_, ?_, ?_⟩
  · intro cs W h
    rw [find_target, image_find_target, h]
    simp [warp, get_real_coords]
  · intro cs W t hsel hm
    rw [find_target, image_find_target, hsel]
    simp only
    rw [if_pos hm]
  · intro cs W t hsel hm hden
    rw [find_target, image_find_target, hsel]
    simp only
    rw [if_neg hm]
    simp only
    rw [warp]
    rw [hden]
    rw [get_real_coords]
    simp only
    exact ⟨_, _, rfl, conv_not_finite _ _ _ (np_div_zero_not_finite _),
      conv_not_finite _ _ _ (np_div_zero_not_finite _)⟩
  · intro cs W t hsel hm hden
    rw [find_target, image_find_target, hsel]
    simp only
    rw [if_neg hm]
    simp only
    rw [warp]
    rw [show np_div (W.m00 * ((pyInt (t.m10 / t.m00) : ℤ) : ℚ) +
          W.m01 * ((pyInt (t.m01 / t.m00) : ℤ) : ℚ) + W.m02)
        (W.m20 * ((pyInt (t.m10 / t.m00) : ℤ) : ℚ) +
          W.m21 * ((pyInt (t.m01 / t.m00) : ℤ) : ℚ) + W.m22) =
        .finite ((W.m00 * ((pyInt (t.m10 / t.m00) : ℤ) : ℚ) +
          W.m01 * ((pyInt (t.m01 / t.m00) : ℤ) : ℚ) + W.m02) /
        (W.m20 * ((pyInt (t.m10 / t.m00) : ℤ) : ℚ) +
          W.m21 * ((pyInt (t.m01 / t.m00) : ℤ) : ℚ) + W.m22))
      from by rw [np_div, if_neg hden]]
    rw [show np_div (W.m10 * ((pyInt (t.m10 / t.m00) : ℤ) : ℚ) +
          W.m11 * ((pyInt (t.m01 / t.m00) : ℤ) : ℚ) + W.m12)
        (W.m20 * ((pyInt (t.m10 / t.m00) : ℤ) : ℚ) +
          W.m21 * ((pyInt (t.m01 / t.m00) : ℤ) : ℚ) + W.m22) =
        .finite ((W.m10 * ((pyInt (t.m10 / t.m00) : ℤ) : ℚ) +
          W.m11 * ((pyInt (t.m01 / t.m00) : ℤ) : ℚ) + W.m12) /
        (W.m20 * ((pyInt (t.m10 / t.m00) : ℤ) : ℚ) +
          W.m21 * ((pyInt (t.m01 / t.m00) : ℤ) : ℚ) + W.m22))
      from by rw [np_div, if_neg hden]]
    rw [get_real_coords]
    simp only [PyFloat.mulq, PyFloat.subl, round2f]
    exact ⟨_, _, rfl⟩

/-- C3 witness: the theorem's no-contour branch applied to the empty mask. -/
theorem find_target_error_modes_witness :
    select [] = none ∧ find_target [] warp_id = .ok none := by
  have h : select ([] : List Contour) = none := by decide
  exact ⟨h, find_target_error_modes.1 [] warp_id h⟩

/-! ## Claim C10: calibration reference consistency -/

/-- The four calibration reference coordinates of `calibrate_camera`
(src/scara_imaging.py lines 146-148): inches from top-left, scaled by `640/23`
on x and `334/12` on y. -/
def coords_corrected : List (ℚ × ℚ) :=
  [((1 : ℚ), (11.5 : ℚ)), (22, 11.5), (4.5, 4.5), (18.5, 4.5)].map
    (fun p => (p.1 * 640 / 23, p.2 * 334 / 12))

/-- The physical workspace points announced to the operator for the four
calibration samples (src/scara_imaging.py line 153). -/
def calibration_points : List (ℚ × ℚ) := [(0, 10.5), (0, -10.5), (7, 7), (7, -7)]

/-- C10: the calibration reference frame and the operational unit conversion are
mutually consistent — applying `get_real_coords` to each scaled calibration
reference coordinate (a finite float64 pair) yields exactly the physical point
announced to the operator for that sample. -/
theorem calibration_consistent_with_real_coords :
    coords_corrected.map
        (fun c => get_real_coords (some (PyFloat.finite c.1, PyFloat.finite c.2))) =
      calibration_points.map (fun p => some (PyFloat.finite p.1, PyFloat.finite p.2)) := by
  norm_num [coords_corrected, calibration_points, get_real_coords,
    PyFloat.mulq, PyFloat.subl]

end Scara
